import Mathlib

/-!
# Sunchain order settlement: a shallow embedding of `x/sunchain`

The development models the message handlers of `x/sunchain/handler.go`
(`handleBuySun`, `handleSetSourceChannel`, `handleOracleRespondPacketData`) and the
order counter of `x/sunchain/keeper/keeper.go` (`GetOrderCount`, `GetNextOrderCount`),
and the catalog records of the keeper (`GetProduct`, `IsProductPresent`, `SetSell`,
`SetReservation`), and settles the claims C1 to C11 of the specification against them.

Conventions of the embedding.

* Go strings are read through their character list (`String.data`).
* `uint64` values are naturals reduced modulo `2 ^ 64`; `int64` values are integers in
  `[-2 ^ 63, 2 ^ 63)`; `sdk.Int` is an unbounded integer.
* A handler returns an `Outcome`: the way it ended (normal return, error return, run-time
  panic) together with the context exactly as the handler left it. The enclosing
  transaction, which keeps or discards those writes, is `runTx`.
* The store maps string keys to decoded values. The methods modelled from the
  specification read a value of another kind under a key as no value of the kind asked
  for; the methods of `keeper.go` decode whatever lies under the key, and what they make
  of the bytes of a record of another kind is a parameter (`StoreCodec`, `CatalogPkg`).
* The bank keeper and the channel keeper are interfaces in the Go code; they are records
  of operations over an abstract state here. An operation returns the state it leaves and
  the error it reports.
* `AddOrder`, `GetOrder`, `SetOrder`, `GetChannel`, `SetChannel`, the order record, the store
  keys, `DecodeResult` and `GetEscrowAddress` are called by the handlers but declared
  outside the sources at hand; each is modelled from the specification or taken as a
  parameter, and says so. In particular `DecodeResult` follows section 4.6: it returns
  only prices that are strictly positive in the `int64` fill computation.

Layout: definitions (data model, keeper, handlers, sample collaborators, notions of the
specification), then supporting facts, then one section per claim.
-/

namespace Sunchain

/-! ## Errors and outcomes -/

/-- Errors returned by the handlers (`error` values of the Go code). -/
inductive Error where
  /-- The error `types.ErrUnknownClientID`, wrapped with the offending client id. -/
  | ErrUnknownClientID (clientID : String)
  /-- The `strconv.NumError` of `ParseUint` whose cause is `strconv.ErrSyntax`. -/
  | syntaxNumError (num : List Char)
  /-- The `strconv.NumError` of `ParseUint` whose cause is `strconv.ErrRange`. -/
  | rangeNumError (num : List Char)
  /-- The error `hex.InvalidByteError` of `hex.DecodeString`. -/
  | hexInvalidByte (c : Char)
  /-- The error `hex.ErrLength` of `hex.DecodeString`. -/
  | hexErrLength
  /-- The error `sdkerrors.ErrUnknownRequest`, wrapped with a message. -/
  | ErrUnknownRequest (msg : String)
  /-- The order ledger has no order under the requested identifier. -/
  | ErrOrderNotFound (orderID : Nat)
  /-- The channel registry has no binding for the requested counterparty. -/
  | ErrChannelNotFound (chainName : String)
  /-- The error `sdkerrors.ErrInsufficientFunds` of the account ledger. -/
  | ErrInsufficientFunds
  /-- The error `sdkerrors.ErrInvalidCoins` of the account ledger. -/
  | ErrInvalidCoins
  /-- Any other error of an external collaborator (ledger, transport). -/
  | external (msg : String)
  /-- The result does not have the fixed binary layout (`MalformedResult` of section 4.6). -/
  | ErrMalformedResult
  /-- The decoded price is not a strictly positive integer of the fill computation
  (`InvalidPrice` of section 4.6). -/
  | ErrInvalidPrice
  deriving DecidableEq, Repr

/-- Run-time panics that the Go code of the handlers can raise. -/
inductive Panic where
  /-- Index out of range: `order.Amount[0]` on an empty `sdk.Coins`, or
  `binary.BigEndian.Uint64` on fewer than eight bytes. -/
  | indexOutOfRange
  /-- The panic of `sdk.Int.Int64()` when the value does not fit an `int64`. -/
  | int64OutOfBound
  /-- Integer divide by zero. -/
  | divideByZero
  /-- The panic of `sdk.NewCoin` on a negative amount. -/
  | negativeCoinAmount
  deriving DecidableEq, Repr

/-- The way a handler ends, with the context as the handler left it. -/
inductive Outcome (σ : Type) where
  /-- The handler returned `(&sdk.Result, nil)`. -/
  | ok (ctx : σ)
  /-- The handler returned `(nil, err)`. -/
  | err (e : Error) (ctx : σ)
  /-- The handler panicked. -/
  | panic (p : Panic) (ctx : σ)

namespace Outcome

/-- The context a handler left behind, whichever way it ended. -/
def ctx {σ : Type} : Outcome σ → σ
  | .ok c => c
  | .err _ c => c
  | .panic _ c => c

/-- Whether the handler returned without error. -/
def isOk {σ : Type} : Outcome σ → Bool
  | .ok _ => true
  | _ => false

/-- The error a handler returned, when it returned one. -/
def error? {σ : Type} : Outcome σ → Option Error
  | .err e _ => some e
  | _ => none

/-- The panic a handler raised, when it raised one. -/
def panic? {σ : Type} : Outcome σ → Option Panic
  | .panic p _ => some p
  | _ => none

end Outcome

/-! ## Strings: `strings.Split`, `strconv.ParseUint`, `fmt.Sprintf("%d")` -/

/-- Go `strings.Split(s, sep)` for a one-character separator: the pieces of `s` between the
occurrences of `sep`; a string with `n` occurrences has `n + 1` pieces. -/
def stringsSplit (sep : Char) : List Char → List (List Char)
  | [] => [[]]
  | c :: cs =>
    if c = sep then [] :: stringsSplit sep cs
    else
      match stringsSplit sep cs with
      | [] => [[c]]
      | seg :: segs => (c :: seg) :: segs

/-- The largest `uint64`. -/
def maxUint64 : Nat := 18446744073709551615

/-- The cutoff of `strconv.ParseUint` in base 10: the least `n` with `n * 10 > maxUint64`. -/
def parseUintCutoff : Nat := maxUint64 / 10 + 1

/-- The digit value `strconv.ParseUint` gives to a character: decimal digits are worth
`0..9`, ASCII letters `10..35` (case-insensitively, `lower c = c | 0x20`), anything else is
rejected. -/
def parseUintDigit (c : Char) : Option Nat :=
  if 48 ≤ c.toNat ∧ c.toNat ≤ 57 then some (c.toNat - 48)
  else if 97 ≤ Nat.lor c.toNat 32 ∧ Nat.lor c.toNat 32 ≤ 122 then
    some (Nat.lor c.toNat 32 - 97 + 10)
  else none

/-- The digit loop of `strconv.ParseUint(s0, 10, 64)`, with `n` the value accumulated so
far. -/
def parseUintLoop (s0 : List Char) : List Char → Nat → Except Error Nat
  | [], n => .ok n
  | c :: cs, n =>
    match parseUintDigit c with
    | none => .error (.syntaxNumError s0)
    | some d =>
      if d ≥ 10 then .error (.syntaxNumError s0)
      else if n ≥ parseUintCutoff then .error (.rangeNumError s0)
      else if n * 10 + d > maxUint64 then .error (.rangeNumError s0)
      else parseUintLoop s0 cs (n * 10 + d)

/-- Go `strconv.ParseUint(s, 10, 64)`. -/
def ParseUint (s : List Char) : Except Error Nat :=
  if s = [] then .error (.syntaxNumError s) else parseUintLoop s s 0

/-- Go `fmt.Sprintf("%d", n)` for an unsigned `n`: the decimal numeral of `n`. -/
def formatUint (n : Nat) : List Char := Nat.toDigits 10 n

/-- The client id `handleBuySun` gives to the oracle request of order `orderID`:
`fmt.Sprintf("Order:%d", orderID)`. -/
def orderClientID (orderID : Nat) : String := "Order:" ++ String.mk (formatUint orderID)

/-- Lines 113 to 120 of `handleOracleRespondPacketData`: the order identifier named by the
client id of a response packet. -/
def correlate (clientID : String) : Except Error Nat :=
  let segments := stringsSplit ':' clientID.data
  if segments.length ≠ 2 then .error (.ErrUnknownClientID clientID)
  else ParseUint (segments.getD 1 [])

/-! ## Data model -/

/-- An account address (`sdk.AccAddress`): a byte string; `Empty()` holds of the empty one. -/
abbrev AccAddress := List Nat

/-- A coin (`sdk.Coin`): a denomination and an `sdk.Int` amount. -/
structure Coin where
  Denom : String
  Amount : Int
  deriving DecidableEq, Repr

/-- A multi-denomination amount (`sdk.Coins`). -/
abbrev Coins := List Coin

/-- Modelled from the spec: the status of an order, whose declaration is not among the
sources; the handler names `types.Completed` and `types.Active`, and section 3 gives the
three values. -/
inductive OrderStatus where
  | Pending
  | Active
  | Completed
  deriving DecidableEq, Repr

/-- Modelled from the spec: the order record `types.Order`, whose declaration is not among
the sources. The handler reads and writes the fields `Owner`, `Amount`, `Gold` and
`Status`; the spec (section 3) makes `Gold`, the filled amount, absent until a fill. -/
structure Order where
  Owner : AccAddress
  Amount : Coins
  Gold : Option Coin
  Status : OrderStatus
  deriving DecidableEq, Repr

/-- Modelled from the spec: the constructor of an order at creation (section 4.1): owner
and escrowed amount as given, no filled amount, status `Pending`. -/
def NewOrder (owner : AccAddress) (amount : Coins) : Order :=
  { Owner := owner, Amount := amount, Gold := none, Status := .Pending }

/-- Modelled from the spec: a channel binding (section 3), the local port and channel bound
to a counterparty name. -/
structure ChannelBinding where
  Port : String
  Channel : String
  deriving DecidableEq, Repr

/-- Modelled from the spec: the catalog record `types.Product`, whose declaration is not
among the sources; its fields are those `handleMsgSetProduct` fills. -/
structure Product where
  ProductID : String
  Title : String
  Description : String
  Owner : AccAddress
  deriving DecidableEq, Repr

/-- Modelled from the spec: the catalog record `types.Sell`, whose declaration is not among
the sources; its fields are those `handleMsgSetSell` fills. -/
structure Sell where
  SellID : String
  ProductID : String
  Seller : AccAddress
  MinPrice : Coins
  deriving DecidableEq, Repr

/-- Modelled from the spec: the catalog record `types.Reservation`, whose declaration is
not among the sources; its fields are those the keeper reads and writes. -/
structure Reservation where
  ProductID : String
  Buyer : AccAddress
  Price : Coins
  deriving DecidableEq, Repr

/-- The values kept in the key-value store of the module, in decoded form: the eight
big-endian bytes of the order counter, a serialized order, a serialized channel binding,
and the serialized catalog records (product, sell, reservation). -/
inductive StoreVal where
  | count (n : Nat)
  | order (o : Order)
  | channel (b : ChannelBinding)
  | product (p : Product)
  | sell (s : Sell)
  | reservation (r : Reservation)
  deriving DecidableEq, Repr

/-- The key-value store of the module (`ctx.KVStore(k.storeKey)`). -/
abbrev KVStore := String → Option StoreVal

namespace KVStore

/-- The store with no key. -/
def empty : KVStore := fun _ => none

/-- The store operation `store.Get(key)`. -/
def Get (s : KVStore) (key : String) : Option StoreVal := s key

/-- The store operation `store.Set(key, value)`. -/
def Set (s : KVStore) (key : String) (v : StoreVal) : KVStore :=
  fun k => if k = key then some v else s k

end KVStore

/-- The execution context of a handler: the module store, the state behind the bank
keeper (type `β`) and the state behind the channel keeper (type `χ`). -/
structure Context (β χ : Type) where
  store : KVStore
  bank : β
  channels : χ

/-- The interface `types.BankKeeper` as the handlers use it. An operation returns the state
it leaves and the error it reports, if any. -/
structure BankKeeper (β : Type) where
  SendCoins : β → AccAddress → AccAddress → Coins → β × Option Error
  AddCoins : β → AccAddress → Coins → β × Option Error

/-- The counterparty of a channel end (`sourceChannelEnd.Counterparty`). -/
structure Counterparty where
  PortID : String
  ChannelID : String
  deriving DecidableEq, Repr

/-- The payload `oracle.OracleRequestPacketData` built by `handleBuySun`. -/
structure OracleRequestPacketData where
  ClientID : String
  OracleScriptID : Nat
  Calldata : String
  AskCount : Int
  MinCount : Int
  deriving DecidableEq, Repr

/-- The payload `oracle.OracleResponsePacketData`, of which the handler reads the client id
and the hex-encoded result. -/
structure OracleResponsePacketData where
  ClientID : String
  Result : String
  deriving DecidableEq, Repr

/-- A channel packet (`channel.NewPacket`). -/
structure Packet where
  Data : OracleRequestPacketData
  Sequence : Nat
  SourcePort : String
  SourceChannel : String
  DestinationPort : String
  DestinationChannel : String
  TimeoutHeight : Nat
  deriving DecidableEq, Repr

/-- The interface `types.ChannelKeeper` as `handleBuySun` uses it. -/
structure ChannelKeeper (χ : Type) where
  GetChannel : χ → String → String → Option Counterparty
  GetNextSequenceSend : χ → String → String → Option Nat
  SendPacket : χ → Packet → χ × Option Error

/-- The keeper of the module: its bank keeper and its channel keeper. -/
structure Keeper (β χ : Type) where
  BankKeeper : BankKeeper β
  ChannelKeeper : ChannelKeeper χ

/-- Modelled from the spec: the decoded oracle result `types.Result`, whose declaration is
not among the sources (section 4.6, a record holding a price). Its field `Px` is taken to
be a `uint64`, as the conversion `int64(result.Px)` of the handler indicates. -/
structure Result where
  Px : Nat
  deriving DecidableEq, Repr

/-- Modelled from the spec: the declarations of package `types` that the handlers call and
that are not among the sources, taken as parameters: the fixed binary layout of a result
(section 4.6), given by the function `ReadPrice` that reads the price field of a raw
result and is `none` on a length or format mismatch, and the escrow account
`GetEscrowAddress` (section 4.7). -/
structure TypesPkg where
  ReadPrice : List Nat → Option Nat
  GetEscrowAddress : AccAddress

/-- The message `MsgBuySun`. -/
structure MsgBuySun where
  Buyer : AccAddress
  Amount : Coins
  deriving DecidableEq, Repr

/-- The message `MsgSetSourceChannel`. -/
structure MsgSetSourceChannel where
  ChainName : String
  SourcePort : String
  SourceChannel : String
  Signer : AccAddress
  deriving DecidableEq, Repr

/-! ## Machine integers -/

/-- Two to the power 64. -/
def two64 : Nat := 18446744073709551616

/-- Two to the power 63. -/
def two63 : Nat := 9223372036854775808

/-- The Go conversion `int64(x)` of a `uint64`. -/
def int64OfUint64 (x : Nat) : Int :=
  if x % two64 < two63 then ((x % two64 : Nat) : Int) else ((x % two64 : Nat) : Int) - (two64 : Int)

/-- The method `sdk.Int.Int64()`: the value when it fits an `int64`, a panic otherwise. -/
def sdkIntInt64 (i : Int) : Option Int :=
  if -(two63 : Int) ≤ i ∧ i < (two63 : Int) then some i else none

/-- The Go quotient `a / b` of two `int64` with `b` not zero: truncated towards zero, and
wrapped to 64 bits (the only overflow is the least `int64` divided by minus one). -/
def int64Div (a b : Int) : Int :=
  (Int.tdiv a b + (two63 : Int)) % (two64 : Int) - (two63 : Int)

/-- Modelled from the spec: the result decoder `types.DecodeResult`, which is not among the
sources (`decode` of section 4.6). It fails with `MalformedResult` on a length or format
mismatch of the fixed binary layout; the price must be representable as a strictly
positive integer in the fill computation, which is done on `int64`: a decoded price of 0,
and one of `2 ^ 63` or more, fail with `InvalidPrice`; any other price is returned. -/
def TypesPkg.DecodeResult (T : TypesPkg) (raw : List Nat) : Except Error Result :=
  match T.ReadPrice raw with
  | none => .error .ErrMalformedResult
  | some price =>
    if price = 0 then .error .ErrInvalidPrice
    else if two63 ≤ price then .error .ErrInvalidPrice
    else .ok { Px := price }

/-! ## Reference notions for decimal numerals -/


/-- The value of a decimal numeral read from the left, starting from `acc`. -/
def decimalValue (acc : Nat) : List Char → Nat
  | [] => acc
  | c :: cs => decimalValue (acc * 10 + (c.toNat - 48)) cs

/-- Whether a character is one of `0` to `9`. -/
def isDecimalDigit (c : Char) : Bool := decide (48 ≤ c.toNat) && decide (c.toNat ≤ 57)

/-! ## Keeper: the order counter (`keeper.go`, lines 28 to 46) -/

/-- Modelled from the spec: the store key `types.OrdersCountStoreKey`, whose declaration is
not among the sources; the persisted layout of section 6 names it `order_count`. -/
def OrdersCountStoreKey : String := "order_count"

/-- Modelled from the spec: the serialized form of the records of the store, which the
codec and the record types outside the sources determine, as far as the order counter
reads it: what `binary.BigEndian.Uint64` returns on the bytes of a stored record that is
not a counter, `none` when the record has fewer than eight bytes, on which the read
panics. Taken as a parameter. -/
structure StoreCodec where
  Uint64OfRecord : StoreVal → Option Nat

/-- The keeper method `GetOrderCount` (lines 28 to 36): 0 when nothing is stored under
`OrdersCountStoreKey`; otherwise `binary.BigEndian.Uint64` of the bytes stored there, which
is the counter when a counter is stored, whatever the first eight bytes of another record
give when a record of another kind is stored, and a panic on fewer than eight bytes. -/
def GetOrderCount {β χ : Type} (cdc : StoreCodec) (ctx : Context β χ) : Except Panic Nat :=
  match ctx.store.Get OrdersCountStoreKey with
  | none => .ok 0
  | some (.count n) => .ok (n % two64)
  | some record =>
    match cdc.Uint64OfRecord record with
    | none => .error .indexOutOfRange
    | some v => .ok (v % two64)

/-- The keeper method `GetNextOrderCount` (lines 38 to 46): stores `orderCount + 1` (a
`uint64` sum) under `OrdersCountStoreKey` and returns it. -/
def GetNextOrderCount {β χ : Type} (cdc : StoreCodec) (ctx : Context β χ) :
    Except Panic (Context β χ × Nat) :=
  match GetOrderCount cdc ctx with
  | .error p => .error p
  | .ok orderCount =>
    let next := (orderCount + 1) % two64
    .ok ({ ctx with store := ctx.store.Set OrdersCountStoreKey (.count next) }, next)

/-! ## Keeper: the order ledger and the channel registry (modelled from the spec) -/

/-- Modelled from the spec: the store key of an order, not among the sources; section 6
gives it as the order identifier in decimal. -/
def OrderStoreKey (orderID : Nat) : String := String.mk (formatUint orderID)

/-- Modelled from the spec: the keeper method `GetOrder`, not among the sources
(`get_order` of section 4.1): the order stored under the identifier, and a not-found error
when no order is stored there. -/
def GetOrder {β χ : Type} (ctx : Context β χ) (orderID : Nat) : Except Error Order :=
  match ctx.store.Get (OrderStoreKey orderID) with
  | some (.order o) => .ok o
  | _ => .error (.ErrOrderNotFound orderID)

/-- Modelled from the spec: the keeper method `SetOrder`, not among the sources
(`save_order` of section 4.1): overwrites the record of the identifier, and does nothing
when the owner is empty or the escrowed amount is empty. -/
def SetOrder {β χ : Type} (ctx : Context β χ) (orderID : Nat) (order : Order) : Context β χ :=
  if order.Owner = [] ∨ order.Amount = [] then ctx
  else { ctx with store := ctx.store.Set (OrderStoreKey orderID) (.order order) }

/-- Modelled from the spec: the persisted counter of the order ledger as `create_order`
reads it (section 4.1: read current value, default 0 if absent): the counter stored under
`OrdersCountStoreKey`, and 0 when no counter is stored there. -/
def orderCounter {β χ : Type} (ctx : Context β χ) : Nat :=
  match ctx.store.Get OrdersCountStoreKey with
  | some (.count n) => n % two64
  | _ => 0

/-- Modelled from the spec: the allocation of the next identifier by `create_order`
(section 4.1: read the current value, increment, persist), the identifier being a 64-bit
unsigned integer. -/
def allocateOrderID {β χ : Type} (ctx : Context β χ) : Context β χ × Nat :=
  let orderCount := orderCounter ctx
  let next := (orderCount + 1) % two64
  ({ ctx with store := ctx.store.Set OrdersCountStoreKey (.count next) }, next)

/-- Modelled from the spec: the keeper method `AddOrder`, not among the sources
(`create_order` of section 4.1): takes the next identifier from the persisted counter,
builds a `Pending` order, persists it and returns the identifier. The store of the model
is always available, so the storage error of the spec does not arise. -/
def AddOrder {β χ : Type} (ctx : Context β χ) (buyer : AccAddress) (amount : Coins) :
    Context β χ × Except Error Nat :=
  let (ctx1, orderCount) := allocateOrderID ctx
  (SetOrder ctx1 orderCount (NewOrder buyer amount), .ok orderCount)

/-- Modelled from the spec: the keeper method `SetChannel`, not among the sources
(`set_binding` of section 4.2): an unconditional upsert of the binding of a counterparty
name. -/
def SetChannel {β χ : Type} (ctx : Context β χ) (chainName port channel : String) :
    Context β χ :=
  { ctx with store := ctx.store.Set chainName (.channel { Port := port, Channel := channel }) }

/-- Modelled from the spec: the keeper method `GetChannel`, not among the sources
(`get_binding` of section 4.2): the channel bound to a counterparty name, and an error when
no binding is stored for the name. -/
def GetChannel {β χ : Type} (ctx : Context β χ) (chainName _port : String) :
    Except Error String :=
  match ctx.store.Get chainName with
  | some (.channel b) => .ok b.Channel
  | _ => .error (.ErrChannelNotFound chainName)

/-! ## Encoding helpers of the handlers -/

/-- The value of a hexadecimal digit (`fromHexChar` of `encoding/hex`). -/
def fromHexChar (c : Char) : Option Nat :=
  if 48 ≤ c.toNat ∧ c.toNat ≤ 57 then some (c.toNat - 48)
  else if 97 ≤ c.toNat ∧ c.toNat ≤ 102 then some (c.toNat - 97 + 10)
  else if 65 ≤ c.toNat ∧ c.toNat ≤ 70 then some (c.toNat - 65 + 10)
  else none

/-- Go `hex.DecodeString` on the characters of its argument: pairs of hexadecimal digits
from the left; the first bad character is reported, and an odd length after it. -/
def hexDecode : List Char → Except Error (List Nat)
  | [] => .ok []
  | [a] =>
    match fromHexChar a with
    | none => .error (.hexInvalidByte a)
    | some _ => .error .hexErrLength
  | a :: b :: rest =>
    match fromHexChar a with
    | none => .error (.hexInvalidByte a)
    | some x =>
      match fromHexChar b with
      | none => .error (.hexInvalidByte b)
      | some y =>
        match hexDecode rest with
        | .error e => .error e
        | .ok bytes => .ok ((x * 16 + y) :: bytes)

/-- Go `hex.DecodeString`. -/
def hexDecodeString (s : String) : Except Error (List Nat) := hexDecode s.data

/-- The lower-case hexadecimal digit of a value below 16. -/
def hexDigit (n : Nat) : Char := Nat.digitChar (n % 16)

/-- Go `hex.EncodeToString`. -/
def hexEncodeToString (bytes : List Nat) : String :=
  String.mk (bytes.flatMap fun b => [hexDigit (b / 16), hexDigit b])

/-- Go `binary.LittleEndian.PutUint64` into a fresh slice of eight bytes. -/
def littleEndianPutUint64 (v : Nat) : List Nat :=
  (List.range 8).map fun i => (v / 256 ^ i) % 256

/-! ## Handlers (`handler.go`) -/

/-- The constructor `oracle.NewOracleRequestPacketData`. -/
def NewOracleRequestPacketData (clientID : String) (oracleScriptID : Nat) (calldata : String)
    (askCount minCount : Int) : OracleRequestPacketData :=
  { ClientID := clientID, OracleScriptID := oracleScriptID, Calldata := calldata,
    AskCount := askCount, MinCount := minCount }

/-- The constructor `channel.NewPacket`. -/
def NewPacket (data : OracleRequestPacketData) (sequence : Nat)
    (sourcePort sourceChannel destinationPort destinationChannel : String)
    (timeoutHeight : Nat) : Packet :=
  { Data := data, Sequence := sequence, SourcePort := sourcePort,
    SourceChannel := sourceChannel, DestinationPort := destinationPort,
    DestinationChannel := destinationChannel, TimeoutHeight := timeoutHeight }

/-- The handler `handleBuySun` (lines 51 to 105): creates the order, then resolves the
channel to `bandchain`, its counterparty and the next send sequence, and sends the oracle
request whose client id names the order. -/
def handleBuySun {β χ : Type} (keeper : Keeper β χ) (ctx : Context β χ) (msg : MsgBuySun) :
    Outcome (Context β χ) :=
  match AddOrder ctx msg.Buyer msg.Amount with
  | (ctx1, .error e) => .err e ctx1
  | (ctx1, .ok orderID) =>
    let bandChainID := "bandchain"
    let port := "sunchain"
    let oracleScriptID := 3
    let calldata := littleEndianPutUint64 1000000
    let askCount : Int := 1
    let minCount : Int := 1
    match GetChannel ctx1 bandChainID port with
    | .error _ => .err (.ErrUnknownRequest "not found channel to bandchain") ctx1
    | .ok channelID =>
      match keeper.ChannelKeeper.GetChannel ctx1.channels port channelID with
      | none =>
        .err (.ErrUnknownRequest ("unknown channel " ++ channelID ++ " port sunchain")) ctx1
      | some counterparty =>
        let destinationPort := counterparty.PortID
        let destinationChannel := counterparty.ChannelID
        match keeper.ChannelKeeper.GetNextSequenceSend ctx1.channels port channelID with
        | none =>
          .err (.ErrUnknownRequest
            ("unknown sequence number for channel " ++ channelID ++ " port oracle")) ctx1
        | some sequence =>
          let packet := NewOracleRequestPacketData (orderClientID orderID) oracleScriptID
            (hexEncodeToString calldata) askCount minCount
          match keeper.ChannelKeeper.SendPacket ctx1.channels
              (NewPacket packet sequence port channelID destinationPort destinationChannel
                1000000000) with
          | (channels, some e) => .err e { ctx1 with channels := channels }
          | (channels, none) => .ok { ctx1 with channels := channels }

/-- The handler `handleSetSourceChannel` (lines 107 to 110). -/
def handleSetSourceChannel {β χ : Type} (ctx : Context β χ) (msg : MsgSetSourceChannel) :
    Outcome (Context β χ) :=
  .ok (SetChannel ctx msg.ChainName msg.SourcePort msg.SourceChannel)

/-- The handler `handleOracleRespondPacketData` (lines 112 to 153). The client id is split
on the colon and its second segment parsed as the order identifier; the result is decoded
from hexadecimal and then by `DecodeResult`; the order is loaded; the quotient
`order.Amount[0].Amount.Int64() / int64(result.Px)` is computed. A zero quotient sends the
escrowed coins from the escrow account to the owner and completes the order; any other
quotient is made a `gold` coin (`sdk.NewCoin` panics on a negative amount) and added to the
owner, the result of `AddCoins` being dropped, and the order is activated. -/
def handleOracleRespondPacketData {β χ : Type} (T : TypesPkg) (keeper : Keeper β χ)
    (ctx : Context β χ) (packet : OracleResponsePacketData) : Outcome (Context β χ) :=
  let clientID := stringsSplit ':' packet.ClientID.data
  if clientID.length ≠ 2 then .err (.ErrUnknownClientID packet.ClientID) ctx
  else
    match ParseUint (clientID.getD 1 []) with
    | .error e => .err e ctx
    | .ok orderID =>
      match hexDecodeString packet.Result with
      | .error e => .err e ctx
      | .ok rawResult =>
        match T.DecodeResult rawResult with
        | .error e => .err e ctx
        | .ok result =>
          match GetOrder ctx orderID with
          | .error e => .err e ctx
          | .ok order =>
            match order.Amount with
            | [] => .panic .indexOutOfRange ctx
            | coin :: _ =>
              match sdkIntInt64 coin.Amount with
              | none => .panic .int64OutOfBound ctx
              | some amount =>
                let px := int64OfUint64 result.Px
                if px = 0 then .panic .divideByZero ctx
                else
                  let goldAmount := int64Div amount px
                  if goldAmount = 0 then
                    let escrowAddress := T.GetEscrowAddress
                    match keeper.BankKeeper.SendCoins ctx.bank escrowAddress order.Owner
                        order.Amount with
                    | (bank, some e) => .err e { ctx with bank := bank }
                    | (bank, none) =>
                      .ok (SetOrder { ctx with bank := bank } orderID
                        { order with Status := .Completed })
                  else if goldAmount < 0 then .panic .negativeCoinAmount ctx
                  else
                    let goldToken : Coin := { Denom := "gold", Amount := goldAmount }
                    let bank :=
                      (keeper.BankKeeper.AddCoins ctx.bank order.Owner [goldToken]).1
                    .ok (SetOrder { ctx with bank := bank } orderID
                      { order with Gold := some goldToken, Status := .Active })

/-! ### The stages of `handleOracleRespondPacketData`

The handler is the composition of two stages, named here so that facts can be stated about
each: the decoding of the packet and the settlement of the loaded order
(`handleOracleRespondPacketData_eq`). -/

/-- Lines 113 to 128 of `handleOracleRespondPacketData`: the order identifier named by the
client id, then the decoded result, with the errors in the order the handler meets them. -/
def decodeResponse (T : TypesPkg) (packet : OracleResponsePacketData) :
    Except Error (Nat × Result) :=
  match correlate packet.ClientID with
  | .error e => .error e
  | .ok orderID =>
    match hexDecodeString packet.Result with
    | .error e => .error e
    | .ok rawResult =>
      match T.DecodeResult rawResult with
      | .error e => .error e
      | .ok result => .ok (orderID, result)

/-- Lines 136 to 152 of `handleOracleRespondPacketData`: the settlement of a loaded order at
a decoded price. -/
def settle {β χ : Type} (T : TypesPkg) (keeper : Keeper β χ) (ctx : Context β χ)
    (orderID : Nat) (order : Order) (result : Result) : Outcome (Context β χ) :=
  match order.Amount with
  | [] => .panic .indexOutOfRange ctx
  | coin :: _ =>
    match sdkIntInt64 coin.Amount with
    | none => .panic .int64OutOfBound ctx
    | some amount =>
      let px := int64OfUint64 result.Px
      if px = 0 then .panic .divideByZero ctx
      else
        let goldAmount := int64Div amount px
        if goldAmount = 0 then
          let escrowAddress := T.GetEscrowAddress
          match keeper.BankKeeper.SendCoins ctx.bank escrowAddress order.Owner order.Amount with
          | (bank, some e) => .err e { ctx with bank := bank }
          | (bank, none) =>
            .ok (SetOrder { ctx with bank := bank } orderID
              { order with Status := .Completed })
        else if goldAmount < 0 then .panic .negativeCoinAmount ctx
        else
          let goldToken : Coin := { Denom := "gold", Amount := goldAmount }
          let bank := (keeper.BankKeeper.AddCoins ctx.bank order.Owner [goldToken]).1
          .ok (SetOrder { ctx with bank := bank } orderID
            { order with Gold := some goldToken, Status := .Active })

/-! ## The enclosing transaction -/

/-- Modelled from the spec: the atomic unit of work that encloses a handler (sections 5
and 7), which is not among the sources: the writes of a handler that returns without error
are kept, the writes of a handler that returns an error or panics are discarded. -/
def runTx {σ : Type} (handler : σ → Outcome σ) (ctx : σ) : σ :=
  match handler ctx with
  | .ok ctx1 => ctx1
  | .err _ _ => ctx
  | .panic _ _ => ctx

/-! ## Sample collaborators and sample states

Concrete implementations of the interfaces, used to run the handlers on explicit inputs. -/

/-- An account ledger: the balance of every account in every denomination. -/
abbrev Ledger := AccAddress → String → Int

namespace Ledger

/-- The ledger in which every balance is zero. -/
def empty : Ledger := fun _ _ => 0

/-- Adds `delta` to the balance of `addr` in denomination `denom`. -/
def adjust (l : Ledger) (addr : AccAddress) (denom : String) (delta : Int) : Ledger :=
  fun a d => if a = addr ∧ d = denom then l a d + delta else l a d

/-- Adds every coin of `coins` to the balances of `addr`. -/
def addCoins (l : Ledger) (addr : AccAddress) (coins : Coins) : Ledger :=
  coins.foldl (fun acc c => acc.adjust addr c.Denom c.Amount) l

/-- Removes every coin of `coins` from the balances of `addr`. -/
def subCoins (l : Ledger) (addr : AccAddress) (coins : Coins) : Ledger :=
  coins.foldl (fun acc c => acc.adjust addr c.Denom (-c.Amount)) l

/-- Whether `addr` holds every coin of `coins`. -/
def covers (l : Ledger) (addr : AccAddress) (coins : Coins) : Bool :=
  coins.all fun c => decide (c.Amount ≤ l addr c.Denom)

end Ledger

/-- A bank keeper over a ledger: a transfer fails with insufficient funds when the sender
does not hold the coins, a credit always succeeds. -/
def ledgerBank : BankKeeper Ledger where
  SendCoins := fun l fromAddr toAddr amt =>
    if l.covers fromAddr amt then ((l.subCoins fromAddr amt).addCoins toAddr amt, none)
    else (l, some .ErrInsufficientFunds)
  AddCoins := fun l addr amt => (l.addCoins addr amt, none)

/-- A bank keeper over a ledger that refuses to credit the accounts listed in `blocked`,
and behaves as `ledgerBank` otherwise. -/
def guardedBank (blocked : List AccAddress) : BankKeeper Ledger where
  SendCoins := fun l fromAddr toAddr amt =>
    if toAddr ∈ blocked then (l, some (.external "blocked recipient"))
    else ledgerBank.SendCoins l fromAddr toAddr amt
  AddCoins := fun l addr amt =>
    if addr ∈ blocked then (l, some (.external "blocked recipient"))
    else ledgerBank.AddCoins l addr amt

/-- A channel keeper whose state is the list of packets sent so far: one open channel
`channel-0` on port `sunchain`, whose next send sequence is the number of packets sent
plus one. -/
def sampleChannels : ChannelKeeper (List Packet) where
  GetChannel := fun _ port channel =>
    if port = "sunchain" ∧ channel = "channel-0" then
      some { PortID := "oracle", ChannelID := "channel-7" }
    else none
  GetNextSequenceSend := fun sent port channel =>
    if port = "sunchain" ∧ channel = "channel-0" then some (sent.length + 1) else none
  SendPacket := fun sent packet => (sent ++ [packet], none)

/-- A keeper made of `ledgerBank` and `sampleChannels`. -/
def sampleKeeper : Keeper Ledger (List Packet) :=
  { BankKeeper := ledgerBank, ChannelKeeper := sampleChannels }

/-- A keeper whose bank refuses to credit the accounts listed in `blocked`. -/
def guardedKeeper (blocked : List AccAddress) : Keeper Ledger (List Packet) :=
  { BankKeeper := guardedBank blocked, ChannelKeeper := sampleChannels }

/-- The value of a little-endian byte string. -/
def littleEndianValue : List Nat → Nat
  | [] => 0
  | b :: bs => b % 256 + 256 * littleEndianValue bs

/-- A binary layout of results: the eight little-endian bytes of the price. -/
def readLittleEndianPrice (raw : List Nat) : Option Nat :=
  if raw.length = 8 then some (littleEndianValue raw) else none

/-- The address of the sample escrow account. -/
def sampleEscrow : AccAddress := [0xe5]

/-- The sample package parameters: the little-endian layout and the sample escrow. -/
def sampleTypes : TypesPkg :=
  { ReadPrice := readLittleEndianPrice, GetEscrowAddress := sampleEscrow }

/-- The address of the sample order owner. -/
def alice : AccAddress := [0xa1]

/-- A context with an empty store, an empty ledger and nothing sent. -/
def emptyContext : Context Ledger (List Packet) :=
  { store := KVStore.empty, bank := Ledger.empty, channels := [] }

/-- The context that holds order `orderID` of `alice` with escrow `amount` of `uatom` in
the given status, the escrow account holding the escrowed coins. -/
def contextWithOrder (orderID : Nat) (amount : Int) (status : OrderStatus)
    (gold : Option Coin) : Context Ledger (List Packet) :=
  { store := KVStore.empty.Set (OrderStoreKey orderID)
      (.order { Owner := alice, Amount := [{ Denom := "uatom", Amount := amount }],
                Gold := gold, Status := status }),
    bank := Ledger.empty.adjust sampleEscrow "uatom" amount,
    channels := [] }

/-- The response packet for order `orderID` whose result is the price `px`. -/
def responseFor (orderID : Nat) (px : Nat) : OracleResponsePacketData :=
  { ClientID := orderClientID orderID,
    Result := hexEncodeToString (littleEndianPutUint64 px) }

/-- The address of a second sample order owner. -/
def bob : AccAddress := [0xb0]

/-- The context of `contextWithOrder 42 5000000 Pending` to which the pending order 7 of
`bob`, with escrow 900 of `uatom`, is added. -/
def contextWithTwoOrders : Context Ledger (List Packet) :=
  { store := (contextWithOrder 42 5000000 .Pending none).store.Set (OrderStoreKey 7)
      (.order { Owner := bob, Amount := [{ Denom := "uatom", Amount := 900 }],
                Gold := none, Status := .Pending }),
    bank := (Ledger.empty.adjust sampleEscrow "uatom" 5000000).adjust sampleEscrow "uatom" 900,
    channels := [] }

/-! ## Notions of the specification -/

/-- Whether a segment is an unsigned decimal integer that fits in 64 bits, in the words of
the specification (section 4.5): not empty, decimal digits only, of value at most
`maxUint64`. -/
def isUint64Decimal (s : List Char) : Bool :=
  !s.isEmpty && s.all isDecimalDigit && decide (decimalValue 0 s ≤ maxUint64)

/-- Whether a client id is malformed, in the words of the specification (section 4.5): it
does not split on the colon into exactly two segments, or its second segment is not an
unsigned decimal integer that fits in 64 bits. -/
def malformedClientID (clientID : String) : Bool :=
  let segments := stringsSplit ':' clientID.data
  decide (segments.length ≠ 2) || !isUint64Decimal (segments.getD 1 [])

/-- The values returned by `n` successive calls of `GetNextOrderCount`, each on the context
the previous one left, together with the context after the last call; a panic of one of
the calls is the panic of the whole. -/
def nextOrderCounts {β χ : Type} (cdc : StoreCodec) :
    Nat → Context β χ → Except Panic (Context β χ × List Nat)
  | 0, ctx => .ok (ctx, [])
  | n + 1, ctx =>
    match GetNextOrderCount cdc ctx with
    | .error p => .error p
    | .ok (ctx1, v) =>
      match nextOrderCounts cdc n ctx1 with
      | .error p => .error p
      | .ok (ctx2, vs) => .ok (ctx2, v :: vs)

/-- The context whose store holds only the order counter `n`. -/
def contextWithCount (n : Nat) : Context Ledger (List Packet) :=
  { store := KVStore.empty.Set OrdersCountStoreKey (.count n), bank := Ledger.empty,
    channels := [] }

/-- A buy message of `alice` for 5000000 of `uatom`. -/
def sampleBuy : MsgBuySun :=
  { Buyer := alice, Amount := [{ Denom := "uatom", Amount := 5000000 }] }

/-- The identifier `AddOrder` gives to the order it creates. -/
def nextOrderID {β χ : Type} (ctx : Context β χ) : Nat := (orderCounter ctx + 1) % two64

/-- The oracle request packet that `handleBuySun` sends for an order. -/
def buyPacket (orderID sequence : Nat) (channelID : String) (counterparty : Counterparty) :
    Packet :=
  NewPacket
    (NewOracleRequestPacketData (orderClientID orderID) 3
      (hexEncodeToString (littleEndianPutUint64 1000000)) 1 1)
    sequence "sunchain" channelID counterparty.PortID counterparty.ChannelID 1000000000

/-- A channel keeper that knows the channel `channel-0` of port `sunchain` but has no send
sequence for it. -/
def noSequenceChannels : ChannelKeeper (List Packet) :=
  { sampleChannels with GetNextSequenceSend := fun _ _ _ => none }

/-- A channel keeper whose transport refuses every packet. -/
def failingTransport : ChannelKeeper (List Packet) :=
  { sampleChannels with
    SendPacket := fun sent _ => (sent, some (.external "transport error")) }

/-- The empty context in which `bandchain` is bound to the given channel of port
`sunchain`. -/
def boundContext (channel : String) : Context Ledger (List Packet) :=
  SetChannel emptyContext "bandchain" "sunchain" channel

/-! ## Keeper: the catalog records (`keeper.go`, lines 49 to 281)

Products, sells and reservations are written under the bytes of their identifier, with no
prefix that tells the kinds apart, in the same store as everything else. -/

/-- The store operation `store.Has(key)`. -/
def KVStore.Has (s : KVStore) (key : String) : Bool := (s key).isSome

/-- The store operation `store.Delete(key)`. -/
def KVStore.Delete (s : KVStore) (key : String) : KVStore :=
  fun k => if k = key then none else s k

/-- Modelled from the spec: the declarations of package `types` and of the codec that the
catalog methods of the keeper call and that are not among the sources, taken as
parameters: the default records `NewProduct`, `NewSell` and `NewReservation`, and what
`MustUnmarshalBinaryBare` makes of the bytes of a record of another kind when it decodes
them as a product, a sell or a reservation (`none` when it panics). -/
structure CatalogPkg where
  NewProduct : Product
  NewSell : Sell
  NewReservation : Reservation
  UnmarshalProduct : StoreVal → Option Product
  UnmarshalSell : StoreVal → Option Sell
  UnmarshalReservation : StoreVal → Option Reservation

/-- The keeper method `IsProductPresent` (lines 125 to 129): whether the store has the
key of the identifier. -/
def IsProductPresent {β χ : Type} (ctx : Context β χ) (productID : String) : Bool :=
  ctx.store.Has productID

/-- The keeper method `IsSellPresent` (lines 201 to 205). -/
def IsSellPresent {β χ : Type} (ctx : Context β χ) (sellID : String) : Bool :=
  ctx.store.Has sellID

/-- The keeper method `IsReservationPresent` (lines 277 to 281). -/
def IsReservationPresent {β χ : Type} (ctx : Context β χ) (reservationID : String) : Bool :=
  ctx.store.Has reservationID

/-- The keeper method `GetProduct` (lines 49 to 64): the default product when the store
does not have the key; otherwise the bytes under the key decoded as a product by
`MustUnmarshalBinaryBare`, `none` standing for its panic (empty bytes make it panic). -/
def GetProduct {β χ : Type} (C : CatalogPkg) (ctx : Context β χ) (productID : String) :
    Option Product :=
  if !IsProductPresent ctx productID then some C.NewProduct
  else
    match ctx.store.Get productID with
    | none => none
    | some (.product product) => some product
    | some bz => C.UnmarshalProduct bz

/-- The keeper method `SetProduct` (lines 66 to 75): does nothing when the owner is empty,
writes the product under its identifier otherwise. -/
def SetProduct {β χ : Type} (ctx : Context β χ) (productID : String) (product : Product) :
    Context β χ :=
  if product.Owner = [] then ctx
  else { ctx with store := ctx.store.Set productID (.product product) }

/-- The keeper method `DeleteProduct` (lines 77 to 81). -/
def DeleteProduct {β χ : Type} (ctx : Context β χ) (productID : String) : Context β χ :=
  { ctx with store := ctx.store.Delete productID }

/-- The keeper method `GetSell` (lines 131 to 146). -/
def GetSell {β χ : Type} (C : CatalogPkg) (ctx : Context β χ) (sellID : String) :
    Option Sell :=
  if !IsSellPresent ctx sellID then some C.NewSell
  else
    match ctx.store.Get sellID with
    | none => none
    | some (.sell sell) => some sell
    | some bz => C.UnmarshalSell bz

/-- The guard of `SetSell` (line 150): the record is written only when the seller, the
product identifier and the minimum price are all non-empty. -/
def sellPassesGuard (sell : Sell) : Bool :=
  !(decide (sell.Seller = []) || decide (sell.ProductID.length = 0) ||
    decide (sell.MinPrice = []))

/-- The keeper method `SetSell` (lines 148 to 157): does nothing when the seller, the
product identifier or the minimum price is empty, writes the sell under its identifier
otherwise. -/
def SetSell {β χ : Type} (ctx : Context β χ) (sellID : String) (sell : Sell) : Context β χ :=
  if sell.Seller = [] ∨ sell.ProductID.length = 0 ∨ sell.MinPrice = [] then ctx
  else { ctx with store := ctx.store.Set sellID (.sell sell) }

/-- The keeper method `GetReservation` (lines 207 to 222). -/
def GetReservation {β χ : Type} (C : CatalogPkg) (ctx : Context β χ)
    (reservationID : String) : Option Reservation :=
  if !IsReservationPresent ctx reservationID then some C.NewReservation
  else
    match ctx.store.Get reservationID with
    | none => none
    | some (.reservation reservation) => some reservation
    | some bz => C.UnmarshalReservation bz

/-- The guard of `SetReservation` (line 226): the record is written only when the buyer,
the product identifier and the price are all non-empty. -/
def reservationPassesGuard (reservation : Reservation) : Bool :=
  !(decide (reservation.Buyer = []) || decide (reservation.ProductID.length = 0) ||
    decide (reservation.Price = []))

/-- The keeper method `SetReservation` (lines 224 to 233): does nothing when the buyer, the
product identifier or the price is empty, writes the reservation under its identifier
otherwise. -/
def SetReservation {β χ : Type} (ctx : Context β χ) (reservationID : String)
    (reservation : Reservation) : Context β χ :=
  if reservation.Buyer = [] ∨ reservation.ProductID.length = 0 ∨ reservation.Price = [] then
    ctx
  else { ctx with store := ctx.store.Set reservationID (.reservation reservation) }

/-- A sample catalog package: empty default records, and a codec that panics on the bytes
of a record of another kind. -/
def sampleCatalog : CatalogPkg :=
  { NewProduct := { ProductID := "", Title := "", Description := "", Owner := [] },
    NewSell := { SellID := "", ProductID := "", Seller := [], MinPrice := [] },
    NewReservation := { ProductID := "", Buyer := [], Price := [] },
    UnmarshalProduct := fun _ => none,
    UnmarshalSell := fun _ => none,
    UnmarshalReservation := fun _ => none }

/-- A sell of `alice` for the product `p1`, at a minimum price of 10 `uatom`. -/
def sampleSell : Sell :=
  { SellID := "x", ProductID := "p1", Seller := alice,
    MinPrice := [{ Denom := "uatom", Amount := 10 }] }

/-- A reservation of `bob` for the product `p1`, at the price of 10 `uatom`. -/
def sampleReservation : Reservation :=
  { ProductID := "p1", Buyer := bob, Price := [{ Denom := "uatom", Amount := 10 }] }

/-- A sample reading of the records under the counter key: the sample sell reads as
720989434101641498, the value of the eight bytes `0a 01 78 12 02 70 31 1a`, and the read
panics on every other record. -/
def sampleStoreCodec : StoreCodec :=
  { Uint64OfRecord := fun record =>
      if record = .sell sampleSell then some 720989434101641498 else none }

/-- The context whose store holds only the sample sell, written under the counter key. -/
def contextWithSellAsCount : Context Ledger (List Packet) :=
  SetSell emptyContext OrdersCountStoreKey sampleSell

/-! ## Facts about the string functions -/

theorem parseUintDigit_of_digit {c : Char} (h : isDecimalDigit c = true) :
    parseUintDigit c = some (c.toNat - 48) := by
  simp only [isDecimalDigit, Bool.and_eq_true, decide_eq_true_eq] at h
  simp [parseUintDigit, h.1, h.2]

theorem decimalValue_ge (cs : List Char) : ∀ acc, acc ≤ decimalValue acc cs := by
  induction cs with
  | nil => intro acc; exact Nat.le_refl _
  | cons c cs ih =>
    intro acc
    have h1 : acc ≤ acc * 10 + (c.toNat - 48) := by omega
    exact Nat.le_trans h1 (ih (acc * 10 + (c.toNat - 48)))

theorem decimalValue_append (xs ys : List Char) :
    ∀ acc, decimalValue acc (xs ++ ys) = decimalValue (decimalValue acc xs) ys := by
  induction xs with
  | nil => intro acc; rfl
  | cons c cs ih => intro acc; exact ih (acc * 10 + (c.toNat - 48))

theorem decimalValue_cons (acc : Nat) (c : Char) (cs : List Char) :
    decimalValue acc (c :: cs) = decimalValue (acc * 10 + (c.toNat - 48)) cs := rfl

theorem parseUintLoop_cons (s0 : List Char) (c : Char) (cs : List Char) (n : Nat) :
    parseUintLoop s0 (c :: cs) n =
      match parseUintDigit c with
      | none => .error (.syntaxNumError s0)
      | some d =>
        if d ≥ 10 then .error (.syntaxNumError s0)
        else if n ≥ parseUintCutoff then .error (.rangeNumError s0)
        else if n * 10 + d > maxUint64 then .error (.rangeNumError s0)
        else parseUintLoop s0 cs (n * 10 + d) := rfl

/-- On a numeral made of decimal digits whose value fits 64 bits the loop of `ParseUint`
returns that value. -/
theorem parseUintLoop_digits (s0 : List Char) (cs : List Char) :
    ∀ acc, (∀ c ∈ cs, isDecimalDigit c = true) → decimalValue acc cs ≤ maxUint64 →
      parseUintLoop s0 cs acc = .ok (decimalValue acc cs) := by
  induction cs with
  | nil => intro acc _ _; rfl
  | cons c cs ih =>
    intro acc hd hv
    have hc : isDecimalDigit c = true := hd c (List.mem_cons_self _ _)
    have hcs : ∀ x ∈ cs, isDecimalDigit x = true :=
      fun x hx => hd x (List.mem_cons_of_mem _ hx)
    have hge := decimalValue_ge cs (acc * 10 + (c.toNat - 48))
    rw [decimalValue_cons] at hv ⊢
    have hlt : c.toNat - 48 < 10 := by
      simp only [isDecimalDigit, Bool.and_eq_true, decide_eq_true_eq] at hc
      omega
    have h1 : ¬ (c.toNat - 48 ≥ 10) := by omega
    have h2 : ¬ (acc ≥ parseUintCutoff) := by
      simp only [parseUintCutoff, maxUint64] at *
      omega
    have h3 : ¬ (acc * 10 + (c.toNat - 48) > maxUint64) := by omega
    rw [parseUintLoop_cons, parseUintDigit_of_digit hc]
    simp only [h1, h2, h3, if_false]
    exact ih _ hcs hv

theorem digitChar_decimal {k : Nat} (h : k < 10) :
    (Nat.digitChar k).toNat - 48 = k ∧ isDecimalDigit (Nat.digitChar k) = true ∧
      Nat.digitChar k ≠ ':' := by
  interval_cases k <;> decide

/-- The digits that `Nat.toDigitsCore` puts in front of its accumulator: decimal digits, at
least one, and their value is the number converted. -/
theorem toDigitsCore_decimal : ∀ (fuel n : Nat) (ds : List Char), n < fuel →
    ∃ pre m, Nat.toDigitsCore 10 fuel n ds = pre ++ ds ∧
      (∀ c ∈ pre, isDecimalDigit c = true ∧ c ≠ ':') ∧ pre ≠ [] ∧
      ∀ acc, decimalValue acc pre = acc * m + n := by
  intro fuel
  induction fuel with
  | zero => intro n ds h; exact absurd h (Nat.not_lt_zero _)
  | succ fuel ih =>
    intro n ds h
    have hd := digitChar_decimal (Nat.mod_lt n (by decide : 10 > 0))
    by_cases h0 : n / 10 = 0
    · refine ⟨[Nat.digitChar (n % 10)], 10, ?_, ?_, by simp, ?_⟩
      · simp [Nat.toDigitsCore, h0]
      · intro c hc
        rw [List.mem_singleton] at hc
        subst hc
        exact ⟨hd.2.1, hd.2.2⟩
      · intro acc
        rw [decimalValue_cons, hd.1]
        show acc * 10 + n % 10 = acc * 10 + n
        omega
    · have hlt : n / 10 < fuel := by omega
      obtain ⟨pre, m, hpre, hdig, _, hval⟩ := ih (n / 10) (Nat.digitChar (n % 10) :: ds) hlt
      refine ⟨pre ++ [Nat.digitChar (n % 10)], m * 10, ?_, ?_, by simp, ?_⟩
      · simp [Nat.toDigitsCore, h0, hpre]
      · intro c hc
        rcases List.mem_append.mp hc with hc | hc
        · exact hdig c hc
        · rw [List.mem_singleton] at hc
          subst hc
          exact ⟨hd.2.1, hd.2.2⟩
      · intro acc
        rw [decimalValue_append, hval, decimalValue_cons, hd.1]
        show (acc * m + n / 10) * 10 + n % 10 = acc * (m * 10) + n
        rw [Nat.add_mul, Nat.mul_assoc]
        omega

/-- The decimal numeral of `n`: decimal digits only, at least one, of value `n`. -/
theorem formatUint_decimal (n : Nat) :
    (∀ c ∈ formatUint n, isDecimalDigit c = true ∧ c ≠ ':') ∧ formatUint n ≠ [] ∧
      decimalValue 0 (formatUint n) = n := by
  obtain ⟨pre, m, hpre, hdig, hne, hval⟩ := toDigitsCore_decimal (n + 1) n [] (Nat.lt_succ_self n)
  have hfmt : formatUint n = pre := by
    simp [formatUint, Nat.toDigits, hpre]
  rw [hfmt]
  refine ⟨hdig, hne, ?_⟩
  rw [hval 0]
  omega

theorem ParseUint_formatUint (n : Nat) (h : n ≤ maxUint64) :
    ParseUint (formatUint n) = .ok n := by
  obtain ⟨hdig, hne, hval⟩ := formatUint_decimal n
  have hloop := parseUintLoop_digits (formatUint n) (formatUint n) 0
    (fun c hc => (hdig c hc).1) (by rw [hval]; exact h)
  rw [hval] at hloop
  simp only [ParseUint, hne, if_false]
  exact hloop

theorem formatUint_injective {a b : Nat} (h : formatUint a = formatUint b) : a = b := by
  have ha := (formatUint_decimal a).2.2
  have hb := (formatUint_decimal b).2.2
  rw [h] at ha
  omega

theorem OrderStoreKey_injective {a b : Nat} (h : OrderStoreKey a = OrderStoreKey b) : a = b := by
  apply formatUint_injective
  exact congrArg String.data h

theorem stringsSplit_cons (sep c : Char) (cs : List Char) :
    stringsSplit sep (c :: cs) =
      if c = sep then [] :: stringsSplit sep cs
      else
        match stringsSplit sep cs with
        | [] => [[c]]
        | seg :: segs => (c :: seg) :: segs := rfl

theorem stringsSplit_no_sep (sep : Char) (cs : List Char) (h : sep ∉ cs) :
    stringsSplit sep cs = [cs] := by
  induction cs with
  | nil => rfl
  | cons c cs ih =>
    have hc : ¬ c = sep := fun e => h (e ▸ List.mem_cons_self _ _)
    have hcs : sep ∉ cs := fun e => h (List.mem_cons_of_mem _ e)
    rw [stringsSplit_cons, if_neg hc, ih hcs]

theorem stringsSplit_append_sep (sep : Char) (xs ys : List Char) (h : sep ∉ xs) :
    stringsSplit sep (xs ++ sep :: ys) = xs :: stringsSplit sep ys := by
  induction xs with
  | nil => rw [List.nil_append, stringsSplit_cons, if_pos rfl]
  | cons c cs ih =>
    have hc : ¬ c = sep := fun e => h (e ▸ List.mem_cons_self _ _)
    have hcs : sep ∉ cs := fun e => h (List.mem_cons_of_mem _ e)
    rw [List.cons_append, stringsSplit_cons, if_neg hc, ih hcs]

theorem orderClientID_split (n : Nat) :
    stringsSplit ':' (orderClientID n).data = ["Order".data, formatUint n] := by
  have hno : ':' ∉ formatUint n := fun hmem => ((formatUint_decimal n).1 _ hmem).2 rfl
  have hdata : (orderClientID n).data = "Order".data ++ ':' :: formatUint n := by
    simp [orderClientID, String.data_append]
  rw [hdata, stringsSplit_append_sep ':' _ _ (by decide), stringsSplit_no_sep ':' _ hno]

theorem parseUintDigit_lt_ten {c : Char} {d : Nat} (h : parseUintDigit c = some d)
    (hd : d < 10) : isDecimalDigit c = true ∧ d = c.toNat - 48 := by
  unfold parseUintDigit at h
  split at h
  · next hc =>
    cases h
    exact ⟨by simp [isDecimalDigit, hc.1, hc.2], rfl⟩
  · split at h
    · cases h
      omega
    · cases h

/-- When the loop of `ParseUint` returns a value, the numeral is made of decimal digits and
the value is the one of the numeral. -/
theorem parseUintLoop_ok (s0 : List Char) (cs : List Char) :
    ∀ acc v, parseUintLoop s0 cs acc = .ok v →
      (∀ c ∈ cs, isDecimalDigit c = true) ∧ decimalValue acc cs = v ∧
        (acc ≤ maxUint64 → v ≤ maxUint64) := by
  induction cs with
  | nil =>
    intro acc v h
    cases h
    exact ⟨fun c hc => absurd hc (List.not_mem_nil c), rfl, fun ha => ha⟩
  | cons c cs ih =>
    intro acc v h
    rw [parseUintLoop_cons] at h
    cases hdig : parseUintDigit c with
    | none => rw [hdig] at h; cases h
    | some d =>
      rw [hdig] at h
      dsimp only at h
      split at h
      · cases h
      · next h1 =>
        split at h
        · cases h
        · split at h
          · cases h
          · next h3 =>
            obtain ⟨hc, hd⟩ := parseUintDigit_lt_ten hdig (by omega)
            obtain ⟨hall, hval, hmax⟩ := ih _ _ h
            refine ⟨?_, ?_, fun _ => hmax (by omega)⟩
            · intro x hx
              rcases List.mem_cons.mp hx with hx | hx
              · rw [hx]; exact hc
              · exact hall x hx
            · rw [decimalValue_cons, ← hd]; exact hval

/-- The errors of the loop of `ParseUint` are the syntax error and the range error. -/
theorem parseUintLoop_error (s0 : List Char) (cs : List Char) :
    ∀ acc e, parseUintLoop s0 cs acc = .error e →
      e = .syntaxNumError s0 ∨ e = .rangeNumError s0 := by
  induction cs with
  | nil => intro acc e h; cases h
  | cons c cs ih =>
    intro acc e h
    rw [parseUintLoop_cons] at h
    cases hdig : parseUintDigit c with
    | none => rw [hdig] at h; cases h; exact Or.inl rfl
    | some d =>
      rw [hdig] at h
      dsimp only at h
      split at h
      · cases h; exact Or.inl rfl
      · split at h
        · cases h; exact Or.inr rfl
        · split at h
          · cases h; exact Or.inr rfl
          · exact ih _ _ h

/-- The function `ParseUint` accepts exactly the unsigned decimal integers that fit in 64
bits, and returns their value. -/
theorem ParseUint_ok_iff (s : List Char) (v : Nat) :
    ParseUint s = .ok v ↔ isUint64Decimal s = true ∧ decimalValue 0 s = v := by
  constructor
  · intro h
    unfold ParseUint at h
    split at h
    · cases h
    · next hne =>
      obtain ⟨hall, hval, hmax⟩ := parseUintLoop_ok s s 0 v h
      have hv : v ≤ maxUint64 := hmax (Nat.zero_le _)
      refine ⟨?_, hval⟩
      simp only [isUint64Decimal, Bool.and_eq_true, Bool.not_eq_true', List.isEmpty_eq_false,
        List.all_eq_true, decide_eq_true_eq]
      exact ⟨⟨hne, hall⟩, by rw [hval]; exact hv⟩
  · rintro ⟨hdec, hval⟩
    simp only [isUint64Decimal, Bool.and_eq_true, Bool.not_eq_true', List.isEmpty_eq_false,
      List.all_eq_true, decide_eq_true_eq] at hdec
    obtain ⟨⟨hne, hall⟩, hmax⟩ := hdec
    have hloop := parseUintLoop_digits s s 0 hall hmax
    rw [hval] at hloop
    simp only [ParseUint, hne, if_false]
    exact hloop

/-- On a segment that is not an unsigned decimal integer fitting 64 bits `ParseUint` fails,
with its syntax error or its range error. -/
theorem ParseUint_of_not_decimal (s : List Char) (h : isUint64Decimal s = false) :
    ParseUint s = .error (.syntaxNumError s) ∨ ParseUint s = .error (.rangeNumError s) := by
  cases hp : ParseUint s with
  | ok v =>
    have := ((ParseUint_ok_iff s v).mp hp).1
    rw [h] at this
    cases this
  | error e =>
    unfold ParseUint at hp
    split at hp
    · cases hp; exact Or.inl rfl
    · rcases parseUintLoop_error s s 0 e hp with he | he
      · exact Or.inl (by rw [he])
      · exact Or.inr (by rw [he])

theorem correlate_orderClientID (n : Nat) (h : n ≤ maxUint64) :
    correlate (orderClientID n) = .ok n := by
  unfold correlate
  simp only [orderClientID_split]
  exact ParseUint_formatUint n h

/-! ## Facts about the store and the handlers -/

theorem KVStore.Get_Set_same (s : KVStore) (key : String) (v : StoreVal) :
    (s.Set key v).Get key = some v := by
  simp [KVStore.Get, KVStore.Set]

theorem KVStore.Get_Set_other (s : KVStore) (key k : String) (v : StoreVal) (h : k ≠ key) :
    (s.Set key v).Get k = s.Get k := by
  simp [KVStore.Get, KVStore.Set, h]

theorem KVStore.Set_Set (s : KVStore) (key : String) (v w : StoreVal) :
    (s.Set key v).Set key w = s.Set key w := by
  funext k
  by_cases h : k = key <;> simp [KVStore.Set, h]

theorem SetOrder_store_other {β χ : Type} (ctx : Context β χ) (orderID : Nat) (order : Order)
    (key : String) (h : key ≠ OrderStoreKey orderID) :
    (SetOrder ctx orderID order).store.Get key = ctx.store.Get key := by
  unfold SetOrder
  split
  · rfl
  · exact KVStore.Get_Set_other _ _ _ _ h

theorem SetOrder_bank {β χ : Type} (ctx : Context β χ) (orderID : Nat) (order : Order) :
    (SetOrder ctx orderID order).bank = ctx.bank := by
  unfold SetOrder
  split <;> rfl

theorem SetOrder_channels {β χ : Type} (ctx : Context β χ) (orderID : Nat) (order : Order) :
    (SetOrder ctx orderID order).channels = ctx.channels := by
  unfold SetOrder
  split <;> rfl

theorem SetOrder_valid {β χ : Type} (ctx : Context β χ) (orderID : Nat) (order : Order)
    (hown : order.Owner ≠ []) (hamt : order.Amount ≠ []) :
    SetOrder ctx orderID order =
      { ctx with store := ctx.store.Set (OrderStoreKey orderID) (.order order) } := by
  simp [SetOrder, hown, hamt]

theorem GetOrder_of_stored {β χ : Type} (ctx : Context β χ) (orderID : Nat) (o : Order)
    (h : ctx.store.Get (OrderStoreKey orderID) = some (.order o)) :
    GetOrder ctx orderID = .ok o := by
  simp [GetOrder, h]

theorem GetOrder_stored {β χ : Type} (ctx : Context β χ) (orderID : Nat) (o : Order)
    (h : GetOrder ctx orderID = .ok o) :
    ctx.store.Get (OrderStoreKey orderID) = some (.order o) := by
  unfold GetOrder at h
  split at h
  · next o1 heq => rw [heq]; cases h; rfl
  · cases h

/-- The order identifier of a decoded response is the one its client id names. -/
theorem decodeResponse_orderID (T : TypesPkg) (packet : OracleResponsePacketData)
    (orderID : Nat) (result : Result) (h : decodeResponse T packet = .ok (orderID, result)) :
    correlate packet.ClientID = .ok orderID := by
  unfold decodeResponse at h
  split at h
  · cases h
  · next id hid =>
    split at h
    · cases h
    · split at h
      · cases h
      · cases h; exact hid

/-- The handler is its two stages in sequence: the decoding of the packet, the loading of
the order, the settlement. -/
theorem handleOracleRespondPacketData_eq {β χ : Type} (T : TypesPkg) (keeper : Keeper β χ)
    (ctx : Context β χ) (packet : OracleResponsePacketData) :
    handleOracleRespondPacketData T keeper ctx packet =
      match decodeResponse T packet with
      | .error e => .err e ctx
      | .ok (orderID, result) =>
        match GetOrder ctx orderID with
        | .error e => .err e ctx
        | .ok order => settle T keeper ctx orderID order result := by
  unfold handleOracleRespondPacketData decodeResponse correlate
  dsimp only
  split
  · rfl
  · cases ParseUint ((stringsSplit ':' packet.ClientID.data).getD 1 []) with
    | error e => rfl
    | ok orderID =>
      dsimp only
      cases hexDecodeString packet.Result with
      | error e => rfl
      | ok rawResult =>
        dsimp only
        cases T.DecodeResult rawResult with
        | error e => rfl
        | ok result =>
          dsimp only
          cases GetOrder ctx orderID with
          | error e => rfl
          | ok order => rfl

/-- A response whose client id does not name an order is rejected with the error of
`correlate`, the context untouched. -/
theorem handle_of_correlate_error {β χ : Type} (T : TypesPkg) (keeper : Keeper β χ)
    (ctx : Context β χ) (packet : OracleResponsePacketData) (e : Error)
    (h : correlate packet.ClientID = .error e) :
    handleOracleRespondPacketData T keeper ctx packet = .err e ctx := by
  simp [handleOracleRespondPacketData_eq, decodeResponse, h]

/-- With a decoded response and a stored order the handler is the settlement. -/
theorem handle_of_decoded {β χ : Type} (T : TypesPkg) (keeper : Keeper β χ)
    (ctx : Context β χ) (packet : OracleResponsePacketData) (orderID : Nat) (result : Result)
    (order : Order) (hdec : decodeResponse T packet = .ok (orderID, result))
    (hget : GetOrder ctx orderID = .ok order) :
    handleOracleRespondPacketData T keeper ctx packet =
      settle T keeper ctx orderID order result := by
  simp [handleOracleRespondPacketData_eq, hdec, hget]

/-- Settlement writes no store key but the one of its order. -/
theorem settle_store_other {β χ : Type} (T : TypesPkg) (keeper : Keeper β χ)
    (ctx : Context β χ) (orderID : Nat) (order : Order) (result : Result) (key : String)
    (h : key ≠ OrderStoreKey orderID) :
    (settle T keeper ctx orderID order result).ctx.store.Get key = ctx.store.Get key := by
  unfold settle
  split
  · rfl
  · split
    · rfl
    · dsimp only
      split
      · rfl
      · split
        · split
          · rfl
          · exact SetOrder_store_other _ _ _ _ h
        · split
          · rfl
          · exact SetOrder_store_other _ _ _ _ h

/-- The handler writes no store key but the one of the order its response names. -/
theorem handle_store_other {β χ : Type} (T : TypesPkg) (keeper : Keeper β χ)
    (ctx : Context β χ) (packet : OracleResponsePacketData) (orderID : Nat) (key : String)
    (hid : correlate packet.ClientID = .ok orderID) (h : key ≠ OrderStoreKey orderID) :
    (handleOracleRespondPacketData T keeper ctx packet).ctx.store.Get key =
      ctx.store.Get key := by
  rw [handleOracleRespondPacketData_eq]
  split
  · rfl
  · next id result hdec =>
    have hid2 := decodeResponse_orderID T packet id result hdec
    rw [hid] at hid2
    cases hid2
    split
    · rfl
    · exact settle_store_other T keeper ctx orderID _ result key h

/-! ## Facts about the order counter -/

theorem GetOrderCount_lt {β χ : Type} (cdc : StoreCodec) (ctx : Context β χ) (c : Nat)
    (h : GetOrderCount cdc ctx = .ok c) : c < two64 := by
  unfold GetOrderCount at h
  split at h
  · cases h; decide
  · cases h; exact Nat.mod_lt _ (by decide)
  · split at h
    · cases h
    · cases h; exact Nat.mod_lt _ (by decide)

/-- After a counter is written, `GetOrderCount` reads it. -/
theorem GetOrderCount_Set_count {β χ : Type} (cdc : StoreCodec) (ctx : Context β χ)
    (v : Nat) (hv : v < two64) :
    GetOrderCount cdc
      ({ ctx with store := ctx.store.Set OrdersCountStoreKey (.count v) } : Context β χ) =
        .ok v := by
  simp only [GetOrderCount, KVStore.Get_Set_same]
  rw [Nat.mod_eq_of_lt hv]

/-- When `GetOrderCount` returns, `GetNextOrderCount` returns the successor as a `uint64`
and stores it. -/
theorem GetNextOrderCount_of_count {β χ : Type} (cdc : StoreCodec) (ctx : Context β χ)
    (c : Nat) (h : GetOrderCount cdc ctx = .ok c) :
    GetNextOrderCount cdc ctx =
      .ok ({ ctx with store := ctx.store.Set OrdersCountStoreKey (.count ((c + 1) % two64)) },
        (c + 1) % two64) := by
  simp only [GetNextOrderCount, h]

/-- When `GetOrderCount` panics, so does `GetNextOrderCount`. -/
theorem GetNextOrderCount_of_panic {β χ : Type} (cdc : StoreCodec) (ctx : Context β χ)
    (p : Panic) (h : GetOrderCount cdc ctx = .error p) :
    GetNextOrderCount cdc ctx = .error p := by
  simp only [GetNextOrderCount, h]

/-- What `GetNextOrderCount` returns is what `GetOrderCount` reads afterwards. -/
theorem GetOrderCount_GetNextOrderCount {β χ : Type} (cdc : StoreCodec) (ctx ctx1 : Context β χ)
    (v : Nat) (h : GetNextOrderCount cdc ctx = .ok (ctx1, v)) :
    GetOrderCount cdc ctx1 = .ok v := by
  cases hc : GetOrderCount cdc ctx with
  | error p => rw [GetNextOrderCount_of_panic cdc ctx p hc] at h; cases h
  | ok c =>
    rw [GetNextOrderCount_of_count cdc ctx c hc] at h
    cases h
    exact GetOrderCount_Set_count cdc ctx _ (Nat.mod_lt _ (by decide))

/-- On a store whose counter key holds a counter or nothing, the keeper reads the counter
that the order ledger of the specification reads, and allocates the same identifier. -/
theorem GetOrderCount_eq_orderCounter {β χ : Type} (cdc : StoreCodec) (ctx : Context β χ)
    (h : ctx.store.Get OrdersCountStoreKey = none ∨
      ∃ n, ctx.store.Get OrdersCountStoreKey = some (.count n)) :
    GetOrderCount cdc ctx = .ok (orderCounter ctx) ∧
      GetNextOrderCount cdc ctx = .ok (allocateOrderID ctx) := by
  have hread : GetOrderCount cdc ctx = .ok (orderCounter ctx) := by
    rcases h with h | ⟨n, h⟩ <;> simp [GetOrderCount, orderCounter, h]
  exact ⟨hread, GetNextOrderCount_of_count cdc ctx _ hread⟩

theorem nextOrderCounts_spec {β χ : Type} (cdc : StoreCodec) (n : Nat) :
    ∀ (ctx : Context β χ) (c : Nat), GetOrderCount cdc ctx = .ok c → c + n < two64 →
      ∃ ctx1, nextOrderCounts cdc n ctx = .ok (ctx1, List.range' (c + 1) n) ∧
        GetOrderCount cdc ctx1 = .ok (c + n) := by
  induction n with
  | zero => intro ctx c hc _; exact ⟨ctx, rfl, hc⟩
  | succ n ih =>
    intro ctx c hc h
    have hmod : (c + 1) % two64 = c + 1 := Nat.mod_eq_of_lt (by omega)
    have hnext := GetNextOrderCount_of_count cdc ctx c hc
    rw [hmod] at hnext
    have hread := GetOrderCount_Set_count cdc ctx (c + 1) (by omega)
    obtain ⟨ctx1, hvals, hlast⟩ := ih _ (c + 1) hread (by omega)
    refine ⟨ctx1, ?_, ?_⟩
    · simp only [nextOrderCounts, hnext, hvals]
      rfl
    · rw [hlast]
      congr 1
      omega

/-! ## Facts about `handleBuySun` -/

/-- A handler that returns an error has its writes discarded by the transaction. -/
theorem runTx_of_error {σ : Type} (handler : σ → Outcome σ) (ctx : σ) (e : Error) (c : σ)
    (h : handler ctx = .err e c) : runTx handler ctx = ctx := by
  unfold runTx
  rw [h]

theorem AddOrder_eq {β χ : Type} (ctx : Context β χ) (buyer : AccAddress) (amount : Coins) :
    AddOrder ctx buyer amount =
      (SetOrder (allocateOrderID ctx).1 (nextOrderID ctx) (NewOrder buyer amount),
        .ok (nextOrderID ctx)) := rfl

theorem AddOrder_channels {β χ : Type} (ctx : Context β χ) (buyer : AccAddress)
    (amount : Coins) : (AddOrder ctx buyer amount).1.channels = ctx.channels := by
  rw [AddOrder_eq]
  exact SetOrder_channels _ _ _

theorem AddOrder_bank {β χ : Type} (ctx : Context β χ) (buyer : AccAddress)
    (amount : Coins) : (AddOrder ctx buyer amount).1.bank = ctx.bank := by
  rw [AddOrder_eq]
  exact SetOrder_bank _ _ _

/-- No order key is the name `bandchain`: an order key is a decimal numeral. -/
theorem bandchain_ne_OrderStoreKey (n : Nat) : "bandchain" ≠ OrderStoreKey n := by
  intro h
  have hdata : formatUint n = "bandchain".data := (congrArg String.data h).symm
  have hb : 'b' ∈ formatUint n := by rw [hdata]; decide
  have := ((formatUint_decimal n).1 _ hb).1
  revert this
  decide

/-- Creating an order leaves the binding of `bandchain` as it was. -/
theorem AddOrder_store_bandchain {β χ : Type} (ctx : Context β χ) (buyer : AccAddress)
    (amount : Coins) :
    (AddOrder ctx buyer amount).1.store.Get "bandchain" = ctx.store.Get "bandchain" := by
  rw [AddOrder_eq]
  rw [SetOrder_store_other _ _ _ _ (bandchain_ne_OrderStoreKey _)]
  exact KVStore.Get_Set_other _ _ _ _ (by decide)

theorem GetChannel_AddOrder {β χ : Type} (ctx : Context β χ) (buyer : AccAddress)
    (amount : Coins) (port : String) :
    GetChannel (AddOrder ctx buyer amount).1 "bandchain" port =
      GetChannel ctx "bandchain" port := by
  unfold GetChannel
  rw [AddOrder_store_bandchain]

/-- The handler `handleBuySun` after the creation of the order: the steps of dispatch, on
the context that `AddOrder` left. -/
theorem handleBuySun_eq {β χ : Type} (keeper : Keeper β χ) (ctx : Context β χ)
    (msg : MsgBuySun) :
    handleBuySun keeper ctx msg =
      match GetChannel ctx "bandchain" "sunchain" with
      | .error _ =>
        .err (.ErrUnknownRequest "not found channel to bandchain")
          (AddOrder ctx msg.Buyer msg.Amount).1
      | .ok channelID =>
        match keeper.ChannelKeeper.GetChannel ctx.channels "sunchain" channelID with
        | none =>
          .err (.ErrUnknownRequest ("unknown channel " ++ channelID ++ " port sunchain"))
            (AddOrder ctx msg.Buyer msg.Amount).1
        | some counterparty =>
          match keeper.ChannelKeeper.GetNextSequenceSend ctx.channels "sunchain" channelID with
          | none =>
            .err (.ErrUnknownRequest
              ("unknown sequence number for channel " ++ channelID ++ " port oracle"))
              (AddOrder ctx msg.Buyer msg.Amount).1
          | some sequence =>
            match keeper.ChannelKeeper.SendPacket ctx.channels
                (buyPacket (nextOrderID ctx) sequence channelID counterparty) with
            | (channels, some e) =>
              .err e { (AddOrder ctx msg.Buyer msg.Amount).1 with channels := channels }
            | (channels, none) =>
              .ok { (AddOrder ctx msg.Buyer msg.Amount).1 with channels := channels } := by
  rw [← GetChannel_AddOrder ctx msg.Buyer msg.Amount "sunchain",
    ← AddOrder_channels ctx msg.Buyer msg.Amount]
  rfl

/-! ## Facts about the settlement -/

theorem int64OfUint64_small {P : Nat} (h : P < two63) : int64OfUint64 P = (P : Int) := by
  have h64 : P % two64 = P := Nat.mod_eq_of_lt (Nat.lt_trans h (by decide))
  simp only [int64OfUint64, h64, h, if_true]

theorem int64OfUint64_large {P : Nat} (h1 : two63 ≤ P) (h2 : P < two64) :
    int64OfUint64 P = (P : Int) - (two64 : Int) := by
  have h64 : P % two64 = P := Nat.mod_eq_of_lt h2
  simp only [int64OfUint64, h64, Nat.not_lt.mpr h1, if_false]

theorem sdkIntInt64_of_range {E : Int} (h1 : -(two63 : Int) ≤ E) (h2 : E < (two63 : Int)) :
    sdkIntInt64 E = some E := by
  simp only [sdkIntInt64, h1, h2, and_self, if_true]

/-- Wrapping to 64 bits leaves a quotient within the `int64` range as it is. -/
theorem int64_wrap_id {q : Int} (h1 : -(two63 : Int) ≤ q) (h2 : q < (two63 : Int)) :
    (q + (two63 : Int)) % (two64 : Int) - (two63 : Int) = q := by
  have h63 : ((two63 : Nat) : Int) = 9223372036854775808 := by decide
  have h64 : ((two64 : Nat) : Int) = 18446744073709551616 := by decide
  rw [h63] at h1 h2 ⊢
  rw [h64]
  omega

/-- The `int64` quotient of a non-negative amount by a positive price is the floor of the
division. -/
theorem int64Div_of_pos {a b : Int} (ha : 0 ≤ a) (ha2 : a < (two63 : Int)) (hb : 0 < b) :
    int64Div a b = a / b := by
  unfold int64Div
  rw [Int.tdiv_eq_ediv ha (Int.le_of_lt hb)]
  have hq0 : 0 ≤ a / b := Int.ediv_nonneg ha (Int.le_of_lt hb)
  have hqa : a / b ≤ a := Int.ediv_le_self b ha
  have h63 : (0 : Int) ≤ (two63 : Int) := Int.ofNat_nonneg _
  exact int64_wrap_id (by omega) (by omega)

/-- The `int64` quotient of a non-negative amount by a negative divisor of greater
magnitude is zero. -/
theorem int64Div_of_neg_small {a b : Int} (ha : 0 ≤ a) (hb : a < -b) : int64Div a b = 0 := by
  unfold int64Div
  have hneg : b = -(-b) := by omega
  rw [hneg, Int.tdiv_neg, Int.tdiv_eq_zero_of_lt ha hb]
  decide

/-- The fill path of the settlement: an amount that fits an `int64` and a price below
`2 ^ 63` with a positive quotient. -/
theorem settle_fill {β χ : Type} (T : TypesPkg) (keeper : Keeper β χ) (ctx : Context β χ)
    (orderID : Nat) (order : Order) (coin : Coin) (rest : Coins) (P : Nat)
    (hamt : order.Amount = coin :: rest) (hE : coin.Amount < (two63 : Int)) (hP : 0 < P)
    (hfill : 0 < coin.Amount / (P : Int)) :
    settle T keeper ctx orderID order { Px := P } =
      .ok (SetOrder
        { ctx with bank := (keeper.BankKeeper.AddCoins ctx.bank order.Owner
            [{ Denom := "gold", Amount := coin.Amount / (P : Int) }]).1 }
        orderID
        { order with Gold := some { Denom := "gold", Amount := coin.Amount / (P : Int) },
                     Status := .Active }) := by
  have hPpos : (0 : Int) < (P : Int) := Int.ofNat_lt.mpr hP
  have hE0 : 0 ≤ coin.Amount := by
    by_contra hneg
    have : coin.Amount / (P : Int) < 0 := Int.ediv_neg' (by omega) hPpos
    omega
  have hPle : (P : Int) ≤ coin.Amount := by
    by_contra hlt
    have := Int.ediv_eq_zero_of_lt hE0 (by omega : coin.Amount < (P : Int))
    omega
  have hP63 : P < two63 := by
    have : (P : Int) < (two63 : Int) := by omega
    exact Int.ofNat_lt.mp this
  have h63 : (0 : Int) ≤ (two63 : Int) := Int.ofNat_nonneg _
  have hint := sdkIntInt64_of_range (E := coin.Amount) (by omega) hE
  have hpx := int64OfUint64_small hP63
  have hdiv := int64Div_of_pos hE0 hE hPpos
  have hpx0 : ¬ ((P : Int) = 0) := by omega
  have hg0 : ¬ (coin.Amount / (P : Int) = 0) := by omega
  have hgneg : ¬ (coin.Amount / (P : Int) < 0) := by omega
  simp only [settle, hamt, hint, hpx, hdiv, hpx0, hg0, hgneg, if_false]

/-- The refund path of the settlement: a non-negative amount below the price, the sum of
the two below `2 ^ 64`. -/
theorem settle_refund {β χ : Type} (T : TypesPkg) (keeper : Keeper β χ) (ctx : Context β χ)
    (orderID : Nat) (order : Order) (coin : Coin) (rest : Coins) (P : Nat)
    (hamt : order.Amount = coin :: rest) (hE0 : 0 ≤ coin.Amount)
    (hlt : coin.Amount < (P : Int)) (hsum : coin.Amount + (P : Int) < (two64 : Int)) :
    settle T keeper ctx orderID order { Px := P } =
      match keeper.BankKeeper.SendCoins ctx.bank T.GetEscrowAddress order.Owner
          order.Amount with
      | (bank, some e) => .err e { ctx with bank := bank }
      | (bank, none) =>
        .ok (SetOrder { ctx with bank := bank } orderID { order with Status := .Completed }) := by
  have h63 : ((two63 : Nat) : Int) = 9223372036854775808 := by decide
  have h64 : ((two64 : Nat) : Int) = 18446744073709551616 := by decide
  have hP64 : P < two64 := by
    have : (P : Int) < (two64 : Int) := by omega
    exact Int.ofNat_lt.mp this
  have hint := sdkIntInt64_of_range (E := coin.Amount) (by omega) (by omega)
  by_cases hP63 : P < two63
  · have hpx := int64OfUint64_small hP63
    have hdiv : int64Div coin.Amount (P : Int) = 0 := by
      rw [int64Div_of_pos hE0 (by have := Int.ofNat_lt.mpr hP63; omega) (by omega)]
      exact Int.ediv_eq_zero_of_lt hE0 hlt
    have hpx0 : ¬ ((P : Int) = 0) := by omega
    simp only [settle, hamt, hint, hpx, hdiv, hpx0, if_false, if_true]
  · have hpx := int64OfUint64_large (Nat.not_lt.mp hP63) hP64
    have hdiv : int64Div coin.Amount ((P : Int) - (two64 : Int)) = 0 :=
      int64Div_of_neg_small hE0 (by omega)
    have hpx0 : ¬ ((P : Int) - (two64 : Int) = 0) := by omega
    simp only [settle, hamt, hint, hpx, hdiv, hpx0, if_false, if_true]

/-- The settlement stage has no check of the price of its own: were the price 0 to reach
it, the settlement of any order would panic and leave the context as it was, with the
integer divide by zero as soon as the order has a first coin whose amount fits an `int64`.
The decoder returns no such price (`DecodeResult_range`). -/
theorem settle_zero_price {β χ : Type} (T : TypesPkg) (keeper : Keeper β χ)
    (ctx : Context β χ) (orderID : Nat) (order : Order) :
    (∃ p, settle T keeper ctx orderID order { Px := 0 } = .panic p ctx) ∧
    ∀ coin rest, order.Amount = coin :: rest → sdkIntInt64 coin.Amount ≠ none →
      settle T keeper ctx orderID order { Px := 0 } = .panic .divideByZero ctx := by
  have hpx : int64OfUint64 0 = 0 := by decide
  refine ⟨?_, ?_⟩
  · unfold settle
    split
    · exact ⟨_, rfl⟩
    · split
      · exact ⟨_, rfl⟩
      · exact ⟨.divideByZero, by simp only [hpx, if_true]⟩
  · intro coin rest hamt hint
    cases hI : sdkIntInt64 coin.Amount with
    | none => exact absurd hI hint
    | some amount => simp only [settle, hamt, hI, hpx, if_true]

/-- The settlement does not read the status of the order: two contexts that differ only in
the status stored for the order are settled the same way. -/
theorem settle_status_blind {β χ : Type} (T : TypesPkg) (keeper : Keeper β χ)
    (store : KVStore) (bank : β) (channels : χ) (orderID : Nat) (order : Order)
    (st1 st2 : OrderStatus) (result : Result) (hown : order.Owner ≠ []) :
    let run := fun st =>
      settle T keeper
        { store := store.Set (OrderStoreKey orderID) (.order { order with Status := st }),
          bank := bank, channels := channels }
        orderID { order with Status := st } result
    (run st1).isOk = (run st2).isOk ∧ (run st1).error? = (run st2).error? ∧
      (run st1).panic? = (run st2).panic? ∧ (run st1).ctx.bank = (run st2).ctx.bank ∧
      (run st1).ctx.channels = (run st2).ctx.channels ∧
      ((run st1).isOk = true → (run st1).ctx.store = (run st2).ctx.store) := by
  intro run
  simp only [run, settle]
  cases hA : order.Amount with
  | nil => simp [Outcome.isOk, Outcome.error?, Outcome.panic?, Outcome.ctx]
  | cons coin rest =>
    have hne : order.Amount ≠ [] := by rw [hA]; exact List.cons_ne_nil _ _
    dsimp only
    cases hI : sdkIntInt64 coin.Amount with
    | none => simp [Outcome.isOk, Outcome.error?, Outcome.panic?, Outcome.ctx]
    | some amount =>
      dsimp only
      by_cases hpx : int64OfUint64 result.Px = 0
      · simp [hpx, Outcome.isOk, Outcome.error?, Outcome.panic?, Outcome.ctx]
      · by_cases hg : int64Div amount (int64OfUint64 result.Px) = 0
        · simp only [hpx, hg, if_true, if_false]
          rcases keeper.BankKeeper.SendCoins bank T.GetEscrowAddress order.Owner
            (coin :: rest) with ⟨bk, _ | e⟩
          · simp [SetOrder, hown, Outcome.isOk, Outcome.error?, Outcome.panic?, Outcome.ctx,
              KVStore.Set_Set]
          · simp [Outcome.isOk, Outcome.error?, Outcome.panic?, Outcome.ctx]
        · by_cases hneg : int64Div amount (int64OfUint64 result.Px) < 0
          · simp [hpx, hg, hneg, Outcome.isOk, Outcome.error?, Outcome.panic?, Outcome.ctx]
          · simp [hpx, hg, hneg, SetOrder, hown, Outcome.isOk, Outcome.error?,
              Outcome.panic?, Outcome.ctx, KVStore.Set_Set]

/-- The decoder returns only prices that are strictly positive and below `2 ^ 63`. -/
theorem DecodeResult_range (T : TypesPkg) (raw : List Nat) (result : Result)
    (h : T.DecodeResult raw = .ok result) : 0 < result.Px ∧ result.Px < two63 := by
  unfold TypesPkg.DecodeResult at h
  split at h
  · cases h
  · split at h
    · cases h
    · next hne0 =>
      split at h
      · cases h
      · next hlt =>
        cases h
        exact ⟨Nat.pos_of_ne_zero hne0, Nat.lt_of_not_le hlt⟩

/-- The decoder rejects a result whose price field is 0 with the invalid-price error. -/
theorem DecodeResult_zero (T : TypesPkg) (raw : List Nat) (h : T.ReadPrice raw = some 0) :
    T.DecodeResult raw = .error .ErrInvalidPrice := by
  simp [TypesPkg.DecodeResult, h]

/-- The price of a decoded response is strictly positive and below `2 ^ 63`. -/
theorem decodeResponse_range (T : TypesPkg) (packet : OracleResponsePacketData)
    (orderID : Nat) (result : Result) (h : decodeResponse T packet = .ok (orderID, result)) :
    0 < result.Px ∧ result.Px < two63 := by
  unfold decodeResponse at h
  split at h
  · cases h
  · split at h
    · cases h
    · next raw _ =>
      cases hd : T.DecodeResult raw with
      | error e => rw [hd] at h; cases h
      | ok r =>
        rw [hd] at h
        cases h
        exact DecodeResult_range T raw _ hd

/-- With a divisor that is not zero the settlement does not panic on the division. -/
theorem settle_no_divide_by_zero {β χ : Type} (T : TypesPkg) (keeper : Keeper β χ)
    (ctx : Context β χ) (orderID : Nat) (order : Order) (result : Result)
    (hpx : int64OfUint64 result.Px ≠ 0) :
    (settle T keeper ctx orderID order result).panic? ≠ some .divideByZero := by
  unfold settle
  split
  · simp [Outcome.panic?]
  · split
    · simp [Outcome.panic?]
    · simp only [hpx, if_false]
      split
      · split <;> simp [Outcome.panic?]
      · split <;> simp [Outcome.panic?]

/-- The handler never evaluates the division with a zero divisor: no response makes it
panic with an integer divide by zero. -/
theorem handle_no_divide_by_zero {β χ : Type} (T : TypesPkg) (keeper : Keeper β χ)
    (ctx : Context β χ) (packet : OracleResponsePacketData) :
    (handleOracleRespondPacketData T keeper ctx packet).panic? ≠ some .divideByZero := by
  rw [handleOracleRespondPacketData_eq]
  split
  · simp [Outcome.panic?]
  · next orderID result hdec =>
    have hr := decodeResponse_range T packet orderID result hdec
    have hpx : int64OfUint64 result.Px ≠ 0 := by
      rw [int64OfUint64_small hr.2]
      have : (0 : Int) < (result.Px : Int) := Int.ofNat_lt.mpr hr.1
      omega
    split
    · simp [Outcome.panic?]
    · exact settle_no_divide_by_zero T keeper ctx orderID _ result hpx

/-! ## Facts about the catalog records -/

theorem KVStore.Has_Set_same (s : KVStore) (key : String) (v : StoreVal) :
    (s.Set key v).Has key = true := by
  simp [KVStore.Has, KVStore.Set]

theorem KVStore.Has_Set_other (s : KVStore) (key k : String) (v : StoreVal) (h : k ≠ key) :
    (s.Set key v).Has k = s.Has k := by
  simp [KVStore.Has, KVStore.Set, h]

/-- A sell that passes the guard is written under its identifier. -/
theorem SetSell_of_guard {β χ : Type} (ctx : Context β χ) (sellID : String) (sell : Sell)
    (h : sellPassesGuard sell = true) :
    SetSell ctx sellID sell = { ctx with store := ctx.store.Set sellID (.sell sell) } := by
  simp only [sellPassesGuard, Bool.not_eq_true', Bool.or_eq_false_iff,
    decide_eq_false_iff_not] at h
  obtain ⟨⟨h1, h2⟩, h3⟩ := h
  simp [SetSell, h1, h2, h3]

/-- A sell that does not pass the guard is not written. -/
theorem SetSell_of_not_guard {β χ : Type} (ctx : Context β χ) (sellID : String) (sell : Sell)
    (h : sellPassesGuard sell = false) : SetSell ctx sellID sell = ctx := by
  simp only [sellPassesGuard, Bool.not_eq_false', Bool.or_eq_true, decide_eq_true_eq] at h
  unfold SetSell
  rw [if_pos]
  rcases h with (h | h) | h
  · exact Or.inl h
  · exact Or.inr (Or.inl h)
  · exact Or.inr (Or.inr h)

/-- A reservation that passes the guard is written under its identifier. -/
theorem SetReservation_of_guard {β χ : Type} (ctx : Context β χ) (reservationID : String)
    (reservation : Reservation) (h : reservationPassesGuard reservation = true) :
    SetReservation ctx reservationID reservation =
      { ctx with store := ctx.store.Set reservationID (.reservation reservation) } := by
  simp only [reservationPassesGuard, Bool.not_eq_true', Bool.or_eq_false_iff,
    decide_eq_false_iff_not] at h
  obtain ⟨⟨h1, h2⟩, h3⟩ := h
  simp [SetReservation, h1, h2, h3]

/-- After a sell is written under `x`, the keeper finds a product present under `x` and
`GetProduct` decodes the bytes of the sell, whatever was stored under `x` before. -/
theorem SetSell_shadows_product {β χ : Type} (C : CatalogPkg) (ctx : Context β χ)
    (x : String) (sell : Sell) (h : sellPassesGuard sell = true) :
    IsProductPresent (SetSell ctx x sell) x = true ∧
      GetProduct C (SetSell ctx x sell) x = C.UnmarshalProduct (.sell sell) := by
  rw [SetSell_of_guard ctx x sell h]
  have hhas : IsProductPresent
      ({ ctx with store := ctx.store.Set x (.sell sell) } : Context β χ) x = true :=
    KVStore.Has_Set_same _ _ _
  refine ⟨hhas, ?_⟩
  unfold GetProduct
  rw [hhas]
  simp [KVStore.Get_Set_same]

/-- After a reservation is written under `x`, the keeper finds a product present under `x`
and `GetProduct` decodes the bytes of the reservation. -/
theorem SetReservation_shadows_product {β χ : Type} (C : CatalogPkg) (ctx : Context β χ)
    (x : String) (reservation : Reservation)
    (h : reservationPassesGuard reservation = true) :
    IsProductPresent (SetReservation ctx x reservation) x = true ∧
      GetProduct C (SetReservation ctx x reservation) x =
        C.UnmarshalProduct (.reservation reservation) := by
  rw [SetReservation_of_guard ctx x reservation h]
  have hhas : IsProductPresent
      ({ ctx with store := ctx.store.Set x (.reservation reservation) } : Context β χ) x =
        true :=
    KVStore.Has_Set_same _ _ _
  refine ⟨hhas, ?_⟩
  unfold GetProduct
  rw [hhas]
  simp [KVStore.Get_Set_same]

/-- Writing a sell under `x` leaves the products under every other identifier as they
were. -/
theorem SetSell_product_other {β χ : Type} (C : CatalogPkg) (ctx : Context β χ)
    (x y : String) (sell : Sell) (hxy : y ≠ x) :
    IsProductPresent (SetSell ctx x sell) y = IsProductPresent ctx y ∧
      GetProduct C (SetSell ctx x sell) y = GetProduct C ctx y := by
  have hget : (SetSell ctx x sell).store.Get y = ctx.store.Get y := by
    unfold SetSell
    split
    · rfl
    · exact KVStore.Get_Set_other _ _ _ _ hxy
  have hhas : IsProductPresent (SetSell ctx x sell) y = IsProductPresent ctx y := by
    unfold IsProductPresent KVStore.Has
    exact congrArg Option.isSome hget
  refine ⟨hhas, ?_⟩
  unfold GetProduct
  rw [hhas, hget]

/-! ## Claims -/

/-- C1, as the code has it: the handler never reads the status of the order. For every
order with a non-empty owner stored under the identifier that the client id of a response
names, whatever the status of the order (`Active` and `Completed` included), the handler
does exactly what it does when the status is `Pending`: it ends the same way (same error or
panic, if any; there is no error for an order already settled), it leaves the same
balances, and when it returns without error it leaves the same store, the order settled
anew with status `Completed` or `Active`. -/
theorem settled_order_is_settled_again {β χ : Type} (T : TypesPkg) (keeper : Keeper β χ)
    (ctx : Context β χ) (packet : OracleResponsePacketData) (orderID : Nat) (order : Order)
    (status : OrderStatus) (hid : correlate packet.ClientID = .ok orderID)
    (hown : order.Owner ≠ []) :
    let deliver := fun st =>
      handleOracleRespondPacketData T keeper
        { store := ctx.store.Set (OrderStoreKey orderID) (.order { order with Status := st }),
          bank := ctx.bank, channels := ctx.channels }
        packet
    (deliver status).isOk = (deliver .Pending).isOk ∧
      (deliver status).error? = (deliver .Pending).error? ∧
      (deliver status).panic? = (deliver .Pending).panic? ∧
      (deliver status).ctx.bank = (deliver .Pending).ctx.bank ∧
      (deliver status).ctx.channels = (deliver .Pending).ctx.channels ∧
      ((deliver status).isOk = true →
        (deliver status).ctx.store = (deliver .Pending).ctx.store) := by
  intro deliver
  cases hdec : decodeResponse T packet with
  | error e =>
    simp [deliver, handleOracleRespondPacketData_eq, hdec, Outcome.isOk, Outcome.error?,
      Outcome.panic?, Outcome.ctx]
  | ok decoded =>
    obtain ⟨id, result⟩ := decoded
    have hid2 := decodeResponse_orderID T packet id result hdec
    rw [hid] at hid2
    cases hid2
    have hrun : ∀ st, deliver st =
        settle T keeper
          { store := ctx.store.Set (OrderStoreKey orderID)
              (.order { order with Status := st }),
            bank := ctx.bank, channels := ctx.channels }
          orderID { order with Status := st } result := by
      intro st
      exact handle_of_decoded T keeper _ packet orderID result _ hdec
        (GetOrder_of_stored _ _ _ (KVStore.Get_Set_same _ _ _))
    rw [hrun status, hrun .Pending]
    exact settle_status_blind T keeper ctx.store ctx.bank ctx.channels orderID order status
      .Pending result hown

/-- Witness of C1: the `Active` order 42 (escrow 5000000, already filled with 5 `gold`) is
settled again by a response at the price 1000000: the handler returns without error and
credits 5 `gold` to the owner. -/
theorem settled_order_is_settled_again_witness :
    (handleOracleRespondPacketData sampleTypes sampleKeeper
        (contextWithOrder 42 5000000 .Active (some { Denom := "gold", Amount := 5 }))
        (responseFor 42 1000000)).isOk = true ∧
    (handleOracleRespondPacketData sampleTypes sampleKeeper
        (contextWithOrder 42 5000000 .Active (some { Denom := "gold", Amount := 5 }))
        (responseFor 42 1000000)).ctx.bank alice "gold" = 5 :=
  have h := settled_order_is_settled_again sampleTypes sampleKeeper
    { store := KVStore.empty, bank := Ledger.empty.adjust sampleEscrow "uatom" 5000000,
      channels := [] }
    (responseFor 42 1000000) 42
    { Owner := alice, Amount := [{ Denom := "uatom", Amount := 5000000 }],
      Gold := some { Denom := "gold", Amount := 5 }, Status := .Active }
    .Active rfl (by decide)
  ⟨h.1.trans rfl, (congrFun (congrFun h.2.2.2.1 alice) "gold").trans (by decide)⟩

/-- Counterexample to C1 as stated: the same response delivered twice for order 42 (escrow
5000000, price 1000000). The first delivery leaves the order `Active` and the owner with 5
`gold`; the second delivery, on an order that is no longer `Pending`, returns without any
error and credits 5 `gold` again, so the owner holds 10. Likewise a `Completed` order is
refunded again as long as the escrow account holds the coins. -/
theorem duplicate_response_settles_twice :
    GetOrder (handleOracleRespondPacketData sampleTypes sampleKeeper
        (contextWithOrder 42 5000000 .Pending none) (responseFor 42 1000000)).ctx 42 =
      .ok { Owner := alice, Amount := [{ Denom := "uatom", Amount := 5000000 }],
            Gold := some { Denom := "gold", Amount := 5 }, Status := .Active } ∧
    (handleOracleRespondPacketData sampleTypes sampleKeeper
        (contextWithOrder 42 5000000 .Pending none) (responseFor 42 1000000)).ctx.bank
      alice "gold" = 5 ∧
    (handleOracleRespondPacketData sampleTypes sampleKeeper
        (handleOracleRespondPacketData sampleTypes sampleKeeper
          (contextWithOrder 42 5000000 .Pending none) (responseFor 42 1000000)).ctx
        (responseFor 42 1000000)).isOk = true ∧
    (handleOracleRespondPacketData sampleTypes sampleKeeper
        (handleOracleRespondPacketData sampleTypes sampleKeeper
          (contextWithOrder 42 5000000 .Pending none) (responseFor 42 1000000)).ctx
        (responseFor 42 1000000)).ctx.bank alice "gold" = 10 ∧
    (handleOracleRespondPacketData sampleTypes sampleKeeper
        (contextWithOrder 42 500000 .Completed none) (responseFor 42 1000000)).isOk = true ∧
    (handleOracleRespondPacketData sampleTypes sampleKeeper
        (contextWithOrder 42 500000 .Completed none) (responseFor 42 1000000)).ctx.bank
      alice "uatom" = 500000 :=
  ⟨rfl, by decide, rfl, by decide, rfl, by decide⟩

/-- C2, as the code has it: for every stored `Pending` order with a non-empty owner whose
first escrowed denomination has a quantity `E` below `2 ^ 63`, every response that names the
order and decodes to a price `P > 0` with `fill = floor (E / P) > 0`, and every ledger that
carries out the credit of `fill` units of `gold` to the owner of the order, the handler
returns without error; that credit is the one operation it asks of the ledger (no transfer
out of the escrow account), and it stores the order with status `Active` and filled amount
`fill`, owner and escrowed amount unchanged. Nothing is said of a ledger that refuses the
credit. -/
theorem fill_credits_owner_and_activates {β χ : Type} (T : TypesPkg) (keeper : Keeper β χ)
    (ctx : Context β χ) (packet : OracleResponsePacketData) (orderID : Nat) (order : Order)
    (denom : String) (E : Int) (rest : Coins) (P : Nat)
    (hdec : decodeResponse T packet = .ok (orderID, { Px := P }))
    (hget : GetOrder ctx orderID = .ok order)
    (_hpending : order.Status = .Pending)
    (hown : order.Owner ≠ [])
    (hamt : order.Amount = { Denom := denom, Amount := E } :: rest)
    (hE : E < 2 ^ 63) (hP : 0 < P) (hfill : 0 < E / (P : Int))
    (_hcredit : (keeper.BankKeeper.AddCoins ctx.bank order.Owner
      [{ Denom := "gold", Amount := E / (P : Int) }]).2 = none) :
    handleOracleRespondPacketData T keeper ctx packet =
      .ok { store := ctx.store.Set (OrderStoreKey orderID)
              (.order { Owner := order.Owner, Amount := order.Amount,
                        Gold := some { Denom := "gold", Amount := E / (P : Int) },
                        Status := .Active }),
            bank := (keeper.BankKeeper.AddCoins ctx.bank order.Owner
              [{ Denom := "gold", Amount := E / (P : Int) }]).1,
            channels := ctx.channels } := by
  have h63 : ((two63 : Nat) : Int) = 2 ^ 63 := by decide
  rw [handle_of_decoded T keeper ctx packet orderID _ order hdec hget,
    settle_fill T keeper ctx orderID order _ rest P hamt (by rw [h63]; exact hE) hP hfill]
  rw [SetOrder_valid]
  · exact hown
  · show order.Amount ≠ []
    rw [hamt]
    exact List.cons_ne_nil _ _

/-- Witness of C2: the first end-to-end scenario. The escrow is 5000000, the price is
1000000; the owner is credited 5 `gold`, the escrow account keeps its 5000000, and the
order is stored `Active` with filled amount 5. -/
theorem fill_credits_owner_and_activates_witness :
    ∃ ctx1, handleOracleRespondPacketData sampleTypes sampleKeeper
        (contextWithOrder 42 5000000 .Pending none) (responseFor 42 1000000) = .ok ctx1 ∧
      ctx1.bank alice "gold" = 5 ∧ ctx1.bank sampleEscrow "uatom" = 5000000 ∧
      GetOrder ctx1 42 =
        .ok { Owner := alice, Amount := [{ Denom := "uatom", Amount := 5000000 }],
              Gold := some { Denom := "gold", Amount := 5 }, Status := .Active } :=
  ⟨_, fill_credits_owner_and_activates sampleTypes sampleKeeper
      (contextWithOrder 42 5000000 .Pending none) (responseFor 42 1000000) 42
      { Owner := alice, Amount := [{ Denom := "uatom", Amount := 5000000 }], Gold := none,
        Status := .Pending }
      "uatom" 5000000 [] 1000000 rfl rfl rfl (by decide) rfl (by decide) (by decide)
      (by decide) rfl,
    by decide, by decide, rfl⟩

/-- Counterexample to C2 as stated: a pending order whose escrowed quantity is `2 ^ 63` and
a response with price 1. The fill `floor (E / P)` is `2 ^ 63 > 0`, yet the handler panics in
`sdk.Int.Int64()`: nothing is credited and the order stays `Pending`. -/
theorem fill_panics_beyond_int64 :
    (0 : Int) < 9223372036854775808 / ((1 : Nat) : Int) ∧
    handleOracleRespondPacketData sampleTypes sampleKeeper
        (contextWithOrder 42 9223372036854775808 .Pending none) (responseFor 42 1) =
      .panic .int64OutOfBound (contextWithOrder 42 9223372036854775808 .Pending none) :=
  ⟨by decide, rfl⟩

/-- C3 (the refund path): for every stored `Pending` order, its owner not empty as
`SetOrder` requires of the orders it stores, whose first escrowed denomination has quantity
`E`, and every response that names the order and decodes to a price `P` (the decoder
returns strictly positive prices only) with `floor (E / P) = 0`, the handler asks the
ledger for exactly one operation, the transfer of the full escrowed amount from the escrow
account to the owner of the order, and credits no `gold`. The ledger having carried out
the transfer, the handler returns without error and stores the order with status
`Completed`, its filled amount, owner and escrowed amount unchanged; when the ledger
refuses, the handler returns the error of the ledger and writes nothing to the store. -/
theorem refund_returns_escrow_and_completes {β χ : Type} (T : TypesPkg) (keeper : Keeper β χ)
    (ctx : Context β χ) (packet : OracleResponsePacketData) (orderID : Nat) (order : Order)
    (denom : String) (E : Int) (rest : Coins) (P : Nat)
    (hdec : decodeResponse T packet = .ok (orderID, { Px := P }))
    (hget : GetOrder ctx orderID = .ok order)
    (_hpending : order.Status = .Pending)
    (hown : order.Owner ≠ [])
    (hamt : order.Amount = { Denom := denom, Amount := E } :: rest)
    (hfill : E / (P : Int) = 0) :
    handleOracleRespondPacketData T keeper ctx packet =
      match keeper.BankKeeper.SendCoins ctx.bank T.GetEscrowAddress order.Owner
          order.Amount with
      | (bank, some e) => .err e { store := ctx.store, bank := bank, channels := ctx.channels }
      | (bank, none) =>
        .ok { store := ctx.store.Set (OrderStoreKey orderID)
                (.order { Owner := order.Owner, Amount := order.Amount, Gold := order.Gold,
                          Status := .Completed }),
              bank := bank, channels := ctx.channels } := by
  have hr := decodeResponse_range T packet orderID _ hdec
  have hPpos : 0 < P := hr.1
  have hPlt : P < two63 := hr.2
  have hP0 : (0 : Int) < (P : Int) := Int.ofNat_lt.mpr hPpos
  have hP63 : (P : Int) < (two63 : Int) := Int.ofNat_lt.mpr hPlt
  have h63 : ((two63 : Nat) : Int) = 9223372036854775808 := by decide
  have h64 : ((two64 : Nat) : Int) = 18446744073709551616 := by decide
  have hmod : E % (P : Int) = E := by
    have := Int.emod_add_ediv E (P : Int)
    rw [hfill] at this
    omega
  have hE : 0 ≤ E := by
    have := Int.emod_nonneg E (by omega : (P : Int) ≠ 0)
    omega
  have hlt : E < (P : Int) := by
    have := Int.emod_lt_of_pos E hP0
    omega
  have hsum : E + (P : Int) < (two64 : Int) := by omega
  rw [handle_of_decoded T keeper ctx packet orderID _ order hdec hget,
    settle_refund T keeper ctx orderID order _ rest P hamt hE hlt hsum]
  rcases keeper.BankKeeper.SendCoins ctx.bank T.GetEscrowAddress order.Owner
    order.Amount with ⟨bank, _ | e⟩
  · dsimp only
    rw [SetOrder_valid]
    · exact hown
    · show order.Amount ≠ []
      rw [hamt]
      exact List.cons_ne_nil _ _
  · rfl

/-- Witness of C3: the second end-to-end scenario. The escrow is 500000, the price is
1000000; the owner gets the 500000 back from the escrow account, no `gold` is credited, and
the order is stored `Completed` with no filled amount. -/
theorem refund_returns_escrow_and_completes_witness :
    ∃ ctx1, handleOracleRespondPacketData sampleTypes sampleKeeper
        (contextWithOrder 42 500000 .Pending none) (responseFor 42 1000000) = .ok ctx1 ∧
      ctx1.bank alice "uatom" = 500000 ∧ ctx1.bank sampleEscrow "uatom" = 0 ∧
      ctx1.bank alice "gold" = 0 ∧
      GetOrder ctx1 42 =
        .ok { Owner := alice, Amount := [{ Denom := "uatom", Amount := 500000 }],
              Gold := none, Status := .Completed } :=
  ⟨_, (refund_returns_escrow_and_completes sampleTypes sampleKeeper
      (contextWithOrder 42 500000 .Pending none) (responseFor 42 1000000) 42
      { Owner := alice, Amount := [{ Denom := "uatom", Amount := 500000 }], Gold := none,
        Status := .Pending }
      "uatom" 500000 [] 1000000 rfl rfl rfl (by decide) rfl (by decide)).trans rfl,
    by decide, by decide, by decide, rfl⟩

/-- C4 (a zero price is rejected before the division): for every oracle response whose
result decodes to a price of 0 (the hexadecimal result decodes to a raw result whose price
field is 0), the handler returns an error and leaves the context, so every balance and the
order, exactly as it was; when the client id names an order the error is the invalid-price
error of the decoder. The division is never evaluated with a zero divisor: the handler
does not panic with an integer divide by zero, on this response or on any other. -/
theorem zero_price_rejected {β χ : Type} (T : TypesPkg) (keeper : Keeper β χ)
    (ctx : Context β χ) (packet : OracleResponsePacketData) (raw : List Nat)
    (hhex : hexDecodeString packet.Result = .ok raw) (hzero : T.ReadPrice raw = some 0) :
    (∃ e, handleOracleRespondPacketData T keeper ctx packet = .err e ctx) ∧
    (∀ orderID, correlate packet.ClientID = .ok orderID →
      handleOracleRespondPacketData T keeper ctx packet = .err .ErrInvalidPrice ctx) ∧
    (∀ (ctx1 : Context β χ) (packet1 : OracleResponsePacketData),
      (handleOracleRespondPacketData T keeper ctx1 packet1).panic? ≠ some .divideByZero) := by
  have hnamed : ∀ orderID, correlate packet.ClientID = .ok orderID →
      handleOracleRespondPacketData T keeper ctx packet = .err .ErrInvalidPrice ctx := by
    intro orderID hid
    simp [handleOracleRespondPacketData_eq, decodeResponse, hid, hhex,
      DecodeResult_zero T raw hzero]
  refine ⟨?_, hnamed, fun ctx1 packet1 => handle_no_divide_by_zero T keeper ctx1 packet1⟩
  cases hid : correlate packet.ClientID with
  | error e => exact ⟨e, handle_of_correlate_error T keeper ctx packet e hid⟩
  | ok orderID => exact ⟨_, hnamed orderID hid⟩

/-- Witness of C4: a response for the pending order 42 whose result holds the price 0 is
rejected with the invalid-price error; the order stays `Pending` and the escrow account
keeps its coins. -/
theorem zero_price_rejected_witness :
    handleOracleRespondPacketData sampleTypes sampleKeeper
        (contextWithOrder 42 5000000 .Pending none) (responseFor 42 0) =
      .err .ErrInvalidPrice (contextWithOrder 42 5000000 .Pending none) :=
  (zero_price_rejected sampleTypes sampleKeeper (contextWithOrder 42 5000000 .Pending none)
    (responseFor 42 0) [0, 0, 0, 0, 0, 0, 0, 0] rfl rfl).2.1 42 rfl

/-- C5, as the code has it: a response whose client id is malformed (it does not split on
the colon into exactly two segments, or its second segment is not an unsigned decimal
integer that fits in 64 bits) makes the handler return an error and leave the context, so
every order record and every balance, exactly as it was. The error is
`ErrUnknownClientID` when the segments are not two, and the error of `strconv.ParseUint`
(its syntax error or its range error), a different kind, when the second segment does not
parse. -/
theorem malformed_client_id_rejected {β χ : Type} (T : TypesPkg) (keeper : Keeper β χ)
    (ctx : Context β χ) (packet : OracleResponsePacketData)
    (h : malformedClientID packet.ClientID = true) :
    ∃ e, handleOracleRespondPacketData T keeper ctx packet = .err e ctx ∧
      if (stringsSplit ':' packet.ClientID.data).length ≠ 2 then
        e = .ErrUnknownClientID packet.ClientID
      else
        e = .syntaxNumError ((stringsSplit ':' packet.ClientID.data).getD 1 []) ∨
        e = .rangeNumError ((stringsSplit ':' packet.ClientID.data).getD 1 []) := by
  by_cases hlen : (stringsSplit ':' packet.ClientID.data).length ≠ 2
  · refine ⟨.ErrUnknownClientID packet.ClientID, ?_, by rw [if_pos hlen]⟩
    apply handle_of_correlate_error
    exact if_pos hlen
  · have hseg : isUint64Decimal ((stringsSplit ':' packet.ClientID.data).getD 1 []) = false := by
      simp only [malformedClientID, hlen, decide_False, Bool.false_or, Bool.not_eq_true'] at h
      exact h
    rcases ParseUint_of_not_decimal _ hseg with hp | hp
    · refine ⟨_, ?_, by rw [if_neg hlen]; exact Or.inl rfl⟩
      apply handle_of_correlate_error
      exact (if_neg hlen).trans hp
    · refine ⟨_, ?_, by rw [if_neg hlen]; exact Or.inr rfl⟩
      apply handle_of_correlate_error
      exact (if_neg hlen).trans hp

/-- Witness of C5 at a client id whose second segment is not a number. -/
theorem malformed_client_id_rejected_witness :
    ∃ e, handleOracleRespondPacketData sampleTypes sampleKeeper
        (contextWithOrder 42 5000000 .Pending none)
        { ClientID := "Order:abc", Result := "40420f0000000000" } =
          .err e (contextWithOrder 42 5000000 .Pending none) ∧
      (e = .syntaxNumError ['a', 'b', 'c'] ∨ e = .rangeNumError ['a', 'b', 'c']) := by
  obtain ⟨e, he, hkind⟩ := malformed_client_id_rejected sampleTypes sampleKeeper
    (contextWithOrder 42 5000000 .Pending none)
    { ClientID := "Order:abc", Result := "40420f0000000000" } (by decide)
  exact ⟨e, he, hkind⟩

/-- Counterexample to C5 as stated: the two kinds of malformed client id are not rejected
with the same error kind. One segment gives `ErrUnknownClientID`; a second segment that is
not a number gives the syntax error of `strconv.ParseUint`, and one that exceeds 64 bits
its range error, neither of which is `ErrUnknownClientID`. -/
theorem malformed_client_id_error_kinds_differ :
    handleOracleRespondPacketData sampleTypes sampleKeeper emptyContext
        { ClientID := "Order", Result := "40420f0000000000" } =
      .err (.ErrUnknownClientID "Order") emptyContext ∧
    handleOracleRespondPacketData sampleTypes sampleKeeper emptyContext
        { ClientID := "Order:abc", Result := "40420f0000000000" } =
      .err (.syntaxNumError ['a', 'b', 'c']) emptyContext ∧
    handleOracleRespondPacketData sampleTypes sampleKeeper emptyContext
        { ClientID := "Order:18446744073709551616", Result := "40420f0000000000" } =
      .err (.rangeNumError "18446744073709551616".data) emptyContext ∧
    (∀ s, Error.syntaxNumError ['a', 'b', 'c'] ≠ Error.ErrUnknownClientID s) ∧
    (∀ s, Error.rangeNumError "18446744073709551616".data ≠ Error.ErrUnknownClientID s) :=
  ⟨rfl, rfl, rfl, fun _ h => Error.noConfusion h, fun _ h => Error.noConfusion h⟩

/-- C6, as the code has it: starting from any store state on which `GetOrderCount` returns
a value `c` (0 when no counter is stored; the read panics when fewer than eight bytes lie
under the counter key) with `c + n < 2 ^ 64`, the `n` successive calls of
`GetNextOrderCount`, each on the state the previous one left, all return, and they return
`c + 1, ..., c + n`: 64-bit values, each strictly greater than `c` and than every value
returned before it. The state after the calls holds the counter `c + n`, and the value a
call returns is the one `GetOrderCount` reads afterwards. -/
theorem order_counts_strictly_increase {β χ : Type} (cdc : StoreCodec) (ctx : Context β χ)
    (c n : Nat) (hc : GetOrderCount cdc ctx = .ok c) (h : c + n < 2 ^ 64) :
    ∃ ctx1, nextOrderCounts cdc n ctx = .ok (ctx1, List.range' (c + 1) n) ∧
      List.Pairwise (fun a b => a < b) (List.range' (c + 1) n) ∧
      (∀ v ∈ List.range' (c + 1) n, c < v ∧ v < 2 ^ 64) ∧
      GetOrderCount cdc ctx1 = .ok (c + n) ∧
      (∀ (ctx2 : Context β χ) (v : Nat), GetNextOrderCount cdc ctx = .ok (ctx2, v) →
        GetOrderCount cdc ctx2 = .ok v) := by
  have h64 : two64 = 2 ^ 64 := by decide
  obtain ⟨ctx1, hvals, hlast⟩ := nextOrderCounts_spec cdc n ctx c hc (by rw [h64]; exact h)
  refine ⟨ctx1, hvals, List.pairwise_lt_range' _ _, ?_, hlast,
    fun ctx2 v hv => GetOrderCount_GetNextOrderCount cdc ctx ctx2 v hv⟩
  intro v hv
  rw [List.mem_range'_1] at hv
  omega

/-- Witness of C6: three calls from the counter 41 return 42, 43 and 44 and leave the
counter 44; and on the store whose counter key holds the sample sell, which the sample
codec reads as 720989434101641498, two calls return the next two values. -/
theorem order_counts_strictly_increase_witness :
    (∃ ctx1, nextOrderCounts sampleStoreCodec 3 (contextWithCount 41) =
        .ok (ctx1, [42, 43, 44]) ∧
      GetOrderCount sampleStoreCodec ctx1 = .ok 44) ∧
    (∃ ctx1, nextOrderCounts sampleStoreCodec 2 contextWithSellAsCount =
        .ok (ctx1, [720989434101641499, 720989434101641500]) ∧
      GetOrderCount sampleStoreCodec ctx1 = .ok 720989434101641500) :=
  ⟨(order_counts_strictly_increase sampleStoreCodec (contextWithCount 41) 41 3 rfl
      (by decide)).elim fun ctx1 h1 => ⟨ctx1, h1.1, h1.2.2.2.1⟩,
    (order_counts_strictly_increase sampleStoreCodec contextWithSellAsCount
      720989434101641498 2 rfl (by decide)).elim fun ctx1 h1 => ⟨ctx1, h1.1, h1.2.2.2.1⟩⟩

/-- Counterexample to C6 as stated. First, a call that follows a rolled-back creation
attempt returns the value the attempt was given: on the empty store the first call of
`GetNextOrderCount` returns 1, which is the identifier `AddOrder` takes; `handleBuySun` then
fails for want of a channel, its writes are discarded, and the next call of
`GetNextOrderCount` returns 1 again. Second, the counter is a `uint64`: from the counter
`2 ^ 64 - 2` two calls return `2 ^ 64 - 1` and then 0. Neither depends on the codec. -/
theorem order_count_not_always_greater :
    (∀ cdc : StoreCodec,
      (GetNextOrderCount cdc emptyContext).map Prod.snd = .ok 1) ∧
    (AddOrder emptyContext sampleBuy.Buyer sampleBuy.Amount).2 = .ok 1 ∧
    (handleBuySun sampleKeeper emptyContext sampleBuy).isOk = false ∧
    (∀ cdc : StoreCodec,
      (GetNextOrderCount cdc
        (runTx (fun ctx => handleBuySun sampleKeeper ctx sampleBuy) emptyContext)).map
          Prod.snd = .ok 1) ∧
    (∀ cdc : StoreCodec,
      (nextOrderCounts cdc 2 (contextWithCount 18446744073709551614)).map Prod.snd =
        .ok [18446744073709551615, 0]) :=
  ⟨fun _ => rfl, rfl, rfl, fun _ => rfl, fun _ => rfl⟩

/-- C7 (a failed order placement leaves no trace): for every owner and amount, when
`bandchain` has no bound channel `handleBuySun` returns the error "not found channel to
bandchain", and the enclosing transaction leaves the state exactly as it was: no new order
record, the order counter not advanced, no balance changed. The same holds at every other
failing step of dispatch: the channel end is unknown, the send sequence is unknown, or the
transport refuses the packet (its error is returned as is). -/
theorem failed_buy_leaves_no_trace {β χ : Type} (keeper : Keeper β χ) (ctx : Context β χ)
    (msg : MsgBuySun) :
    ((∀ b, ctx.store.Get "bandchain" ≠ some (.channel b)) →
      (handleBuySun keeper ctx msg).error? =
          some (.ErrUnknownRequest "not found channel to bandchain") ∧
        runTx (fun c => handleBuySun keeper c msg) ctx = ctx) ∧
    (∀ b, ctx.store.Get "bandchain" = some (.channel b) →
      (keeper.ChannelKeeper.GetChannel ctx.channels "sunchain" b.Channel = none →
        (handleBuySun keeper ctx msg).error? =
            some (.ErrUnknownRequest ("unknown channel " ++ b.Channel ++ " port sunchain")) ∧
          runTx (fun c => handleBuySun keeper c msg) ctx = ctx) ∧
      (∀ counterparty,
        keeper.ChannelKeeper.GetChannel ctx.channels "sunchain" b.Channel = some counterparty →
        keeper.ChannelKeeper.GetNextSequenceSend ctx.channels "sunchain" b.Channel = none →
        (handleBuySun keeper ctx msg).error? =
            some (.ErrUnknownRequest
              ("unknown sequence number for channel " ++ b.Channel ++ " port oracle")) ∧
          runTx (fun c => handleBuySun keeper c msg) ctx = ctx) ∧
      (∀ counterparty sequence e,
        keeper.ChannelKeeper.GetChannel ctx.channels "sunchain" b.Channel = some counterparty →
        keeper.ChannelKeeper.GetNextSequenceSend ctx.channels "sunchain" b.Channel =
          some sequence →
        (keeper.ChannelKeeper.SendPacket ctx.channels
          (buyPacket (nextOrderID ctx) sequence b.Channel counterparty)).2 = some e →
        (handleBuySun keeper ctx msg).error? = some e ∧
          runTx (fun c => handleBuySun keeper c msg) ctx = ctx)) := by
  refine ⟨?_, ?_⟩
  · intro hno
    have hget : GetChannel ctx "bandchain" "sunchain" = .error (.ErrChannelNotFound "bandchain") := by
      unfold GetChannel
      split
      · next b hb => exact absurd hb (hno b)
      · rfl
    have hout := handleBuySun_eq keeper ctx msg
    rw [hget] at hout
    exact ⟨by rw [hout]; rfl, runTx_of_error _ ctx _ _ hout⟩
  · intro b hb
    have hget : GetChannel ctx "bandchain" "sunchain" = .ok b.Channel := by
      unfold GetChannel
      rw [hb]
    have hout := handleBuySun_eq keeper ctx msg
    rw [hget] at hout
    dsimp only at hout
    refine ⟨?_, ?_, ?_⟩
    · intro hch
      rw [hch] at hout
      exact ⟨by rw [hout]; rfl, runTx_of_error _ ctx _ _ hout⟩
    · intro counterparty hch hseq
      rw [hch] at hout
      dsimp only at hout
      rw [hseq] at hout
      exact ⟨by rw [hout]; rfl, runTx_of_error _ ctx _ _ hout⟩
    · intro counterparty sequence e hch hseq hsend
      rw [hch] at hout
      dsimp only at hout
      rw [hseq] at hout
      dsimp only at hout
      have hpair : keeper.ChannelKeeper.SendPacket ctx.channels
          (buyPacket (nextOrderID ctx) sequence b.Channel counterparty) =
          ((keeper.ChannelKeeper.SendPacket ctx.channels
            (buyPacket (nextOrderID ctx) sequence b.Channel counterparty)).1, some e) := by
        rw [← hsend]
      rw [hpair] at hout
      exact ⟨by rw [hout]; rfl, runTx_of_error _ ctx _ _ hout⟩

/-- Witness of C7: each failing step of dispatch on a sample state. With no binding for
`bandchain` the order counter and the order record are those of the empty store after the
transaction; with a binding to an unknown channel, with no send sequence and with a
failing transport the transaction leaves the state as it was. -/
theorem failed_buy_leaves_no_trace_witness :
    ((handleBuySun sampleKeeper emptyContext sampleBuy).error? =
        some (.ErrUnknownRequest "not found channel to bandchain") ∧
      runTx (fun c => handleBuySun sampleKeeper c sampleBuy) emptyContext = emptyContext) ∧
    ((handleBuySun sampleKeeper (boundContext "channel-9") sampleBuy).error? =
        some (.ErrUnknownRequest "unknown channel channel-9 port sunchain") ∧
      runTx (fun c => handleBuySun sampleKeeper c sampleBuy) (boundContext "channel-9") =
        boundContext "channel-9") ∧
    ((handleBuySun { sampleKeeper with ChannelKeeper := noSequenceChannels }
        (boundContext "channel-0") sampleBuy).error? =
        some (.ErrUnknownRequest "unknown sequence number for channel channel-0 port oracle") ∧
      runTx (fun c => handleBuySun { sampleKeeper with ChannelKeeper := noSequenceChannels }
        c sampleBuy) (boundContext "channel-0") = boundContext "channel-0") ∧
    ((handleBuySun { sampleKeeper with ChannelKeeper := failingTransport }
        (boundContext "channel-0") sampleBuy).error? = some (.external "transport error") ∧
      runTx (fun c => handleBuySun { sampleKeeper with ChannelKeeper := failingTransport }
        c sampleBuy) (boundContext "channel-0") = boundContext "channel-0") :=
  ⟨(failed_buy_leaves_no_trace sampleKeeper emptyContext sampleBuy).1
      (fun _ h => Option.noConfusion h),
    ((failed_buy_leaves_no_trace sampleKeeper (boundContext "channel-9") sampleBuy).2
      { Port := "sunchain", Channel := "channel-9" } rfl).1 rfl,
    ((failed_buy_leaves_no_trace { sampleKeeper with ChannelKeeper := noSequenceChannels }
      (boundContext "channel-0") sampleBuy).2
      { Port := "sunchain", Channel := "channel-0" } rfl).2.1
      { PortID := "oracle", ChannelID := "channel-7" } rfl rfl,
    ((failed_buy_leaves_no_trace { sampleKeeper with ChannelKeeper := failingTransport }
      (boundContext "channel-0") sampleBuy).2
      { Port := "sunchain", Channel := "channel-0" } rfl).2.2
      { PortID := "oracle", ChannelID := "channel-7" } 1 (.external "transport error")
      rfl rfl rfl⟩

/-- C8, evaluated on the code: a ledger that refuses to credit the owner of the pending
order 42. On the fill path (escrow 5000000, price 1000000) the handler drops the error of
`AddCoins`: it returns without error and stores the order `Active` with filled amount 5,
although the owner holds no `gold`. On the refund path (escrow 500000) the same ledger
makes the handler return the error and leave the order `Pending`. -/
theorem failed_credit_is_dropped :
    ((guardedKeeper [alice]).BankKeeper.AddCoins
        (contextWithOrder 42 5000000 .Pending none).bank alice
        [{ Denom := "gold", Amount := 5 }]).2 = some (.external "blocked recipient") ∧
    (∃ ctx1, handleOracleRespondPacketData sampleTypes (guardedKeeper [alice])
        (contextWithOrder 42 5000000 .Pending none) (responseFor 42 1000000) = .ok ctx1 ∧
      ctx1.bank alice "gold" = 0 ∧
      GetOrder ctx1 42 =
        .ok { Owner := alice, Amount := [{ Denom := "uatom", Amount := 5000000 }],
              Gold := some { Denom := "gold", Amount := 5 }, Status := .Active }) ∧
    handleOracleRespondPacketData sampleTypes (guardedKeeper [alice])
        (contextWithOrder 42 500000 .Pending none) (responseFor 42 1000000) =
      .err (.external "blocked recipient") (contextWithOrder 42 500000 .Pending none) :=
  ⟨rfl, ⟨_, rfl, by decide, rfl⟩, rfl⟩

/-- C9 (responses for unrelated orders never interfere): for every two distinct order
identifiers `A` and `B` and every response whose client id names `A`, the handler leaves
what is stored for `B` unchanged, so `GetOrder` returns for `B` the same record (owner,
escrowed amount, filled amount, status) after the call as before, whichever way the call
ends. -/
theorem unrelated_order_untouched {β χ : Type} (T : TypesPkg) (keeper : Keeper β χ)
    (ctx : Context β χ) (packet : OracleResponsePacketData) (A B : Nat)
    (hA : correlate packet.ClientID = .ok A) (hAB : A ≠ B) :
    (handleOracleRespondPacketData T keeper ctx packet).ctx.store.Get (OrderStoreKey B) =
        ctx.store.Get (OrderStoreKey B) ∧
    GetOrder (handleOracleRespondPacketData T keeper ctx packet).ctx B = GetOrder ctx B := by
  have hkey : OrderStoreKey B ≠ OrderStoreKey A :=
    fun e => hAB (OrderStoreKey_injective e).symm
  have hstore := handle_store_other T keeper ctx packet A (OrderStoreKey B) hA hkey
  refine ⟨hstore, ?_⟩
  unfold GetOrder
  rw [hstore]

/-- Witness of C9: settling order 42 leaves the pending order 7 as it was. -/
theorem unrelated_order_untouched_witness :
    GetOrder (handleOracleRespondPacketData sampleTypes sampleKeeper contextWithTwoOrders
        (responseFor 42 1000000)).ctx 7 =
      .ok { Owner := bob, Amount := [{ Denom := "uatom", Amount := 900 }],
            Gold := none, Status := .Pending } :=
  (unrelated_order_untouched sampleTypes sampleKeeper contextWithTwoOrders
    (responseFor 42 1000000) 42 7 rfl (by decide)).2.trans rfl

/-- C10 (correlation round trip): for every 64-bit order identifier `n`, the client id that
`handleBuySun` builds for `n`, the text `Order:` followed by `n` in decimal, splits on the
colon into exactly the two segments `Order` and the numeral of `n`; the second segment
parses as `n` without error, so the response handler correlates the client id back to
`n`. -/
theorem correlation_round_trip (n : Nat) (h : n < 2 ^ 64) :
    stringsSplit ':' (orderClientID n).data = ["Order".data, formatUint n] ∧
    (stringsSplit ':' (orderClientID n).data).length = 2 ∧
    ParseUint (formatUint n) = .ok n ∧
    correlate (orderClientID n) = .ok n := by
  have hsplit := orderClientID_split n
  have hparse : ParseUint (formatUint n) = .ok n :=
    ParseUint_formatUint n (by unfold maxUint64; omega)
  exact ⟨hsplit, by rw [hsplit]; rfl, hparse,
    correlate_orderClientID n (by unfold maxUint64; omega)⟩

/-- Witness of C10 at the largest 64-bit identifier. -/
theorem correlation_round_trip_witness :
    correlate (orderClientID 18446744073709551615) = .ok 18446744073709551615 :=
  (correlation_round_trip 18446744073709551615 (by decide)).2.2.2

/-- C11, evaluated on the code: on the empty store no product exists under `x`
(`IsProductPresent` is false and `GetProduct` returns the default product), and the sample
sell passes the guard of `SetSell`. After `SetSell` under `x` the keeper reports a product
present under `x`, and `GetProduct` no longer returns the default product by the absent
branch: it decodes the bytes of the sell as a product, whatever the codec makes of them.
The same happens with the sample reservation and `SetReservation`. -/
theorem sell_written_is_read_as_product :
    IsProductPresent emptyContext "x" = false ∧
    GetProduct sampleCatalog emptyContext "x" = some sampleCatalog.NewProduct ∧
    sellPassesGuard sampleSell = true ∧
    IsProductPresent (SetSell emptyContext "x" sampleSell) "x" = true ∧
    (∀ C : CatalogPkg, GetProduct C (SetSell emptyContext "x" sampleSell) "x" =
      C.UnmarshalProduct (.sell sampleSell)) ∧
    reservationPassesGuard sampleReservation = true ∧
    IsProductPresent (SetReservation emptyContext "x" sampleReservation) "x" = true ∧
    (∀ C : CatalogPkg, GetProduct C (SetReservation emptyContext "x" sampleReservation) "x" =
      C.UnmarshalProduct (.reservation sampleReservation)) :=
  ⟨rfl, rfl, rfl, rfl, fun _ => rfl, rfl, rfl, fun _ => rfl⟩

end Sunchain
